import Mathlib

/-!
# The ATA command engine of `modules/iopcore/cdvdman/atad.c`

A shallow embedding of the driver's command engine.

* The hardware and the kernel are an oracle `Env : Nat → Int`: the value
  with index `k` is what the `k`-th read of a register, or the `k`-th
  value-returning kernel call, yields.  The driver state `St` carries the
  number of values obtained so far next to the in-flight command record
  `atad_cmd_state`.
* Every function returns the list of things it did to the outside world
  (`Event`): register reads and writes and kernel calls, in program order.
* Machine integers are `Nat` or `Int`; a truncation is written where the C
  code truncates (`% 65536` for a `u16`, `% 4294967296` for a `u32`).
  Arguments declared `u16` are meant to be below `65536`.  Buffer addresses
  are plain naturals.
* The build modelled is the default one: `DEV9_DEBUG`, `NETLOG_DEBUG` and
  `ATA_GAMESTAR_WORKAROUND` undefined, so `M_PRINTF` evaluates nothing.
* Loops whose iteration count the code does not bound (the DMA completion
  loop, the PIO pump loop, the chunk loop of `ata_device_sector_io`) take a
  fuel argument and return `none` when it runs out.
-/

namespace Atad

/-! ## Constants of the headers -/

/-- Constants that `atad.c` takes from `atahw.h`, `atad.h` and `speedregs.h`.
Those headers are not part of the sources at hand, so the values are
parameters of the model. -/
structure AtaConsts where
  ATA_C_READ_DMA : Nat
  ATA_C_IDENTIFY_DEVICE : Nat
  ATA_C_IDENTIFY_PACKET_DEVICE : Nat
  ATA_C_SET_FEATURES : Nat
  ATA_C_READ_DMA_EXT : Nat
  ATA_C_WRITE_DMA : Nat
  ATA_C_IDLE : Nat
  ATA_C_WRITE_DMA_EXT : Nat
  ATA_C_STANDBY_IMMEDIATE : Nat
  ATA_C_FLUSH_CACHE : Nat
  ATA_C_FLUSH_CACHE_EXT : Nat
  ATA_C_DEVICE_RESET : Nat
  ATA_C_EXECUTE_DEVICE_DIAGNOSTIC : Nat
  ATA_C_INITIALIZE_DEVICE_PARAMETERS : Nat
  ATA_C_PACKET : Nat
  ATA_SEL_LBA : Nat
  ATA_STAT_BUSY : Nat
  ATA_STAT_ERR : Nat
  ATA_ERR_ICRC : Nat
  ATA_DIR_WRITE : Nat
  SPD_INTR_ATA0 : Nat
  SPD_INTR_ATA : Nat
  SPD_IF_DMA_ENABLE : Nat
  ATA_RES_ERR_NOTREADY : Int
  ATA_RES_ERR_TIMEOUT : Int
  ATA_RES_ERR_IO : Int
  ATA_RES_ERR_ICRC : Int

/-- The values these constants have in the ATA command set and in the SDK
headers the driver is built against; used for concrete evaluations. -/
def sdk : AtaConsts where
  ATA_C_READ_DMA := 0xc8
  ATA_C_IDENTIFY_DEVICE := 0xec
  ATA_C_IDENTIFY_PACKET_DEVICE := 0xa1
  ATA_C_SET_FEATURES := 0xef
  ATA_C_READ_DMA_EXT := 0x25
  ATA_C_WRITE_DMA := 0xca
  ATA_C_IDLE := 0xe3
  ATA_C_WRITE_DMA_EXT := 0x35
  ATA_C_STANDBY_IMMEDIATE := 0xe0
  ATA_C_FLUSH_CACHE := 0xe7
  ATA_C_FLUSH_CACHE_EXT := 0xea
  ATA_C_DEVICE_RESET := 0x08
  ATA_C_EXECUTE_DEVICE_DIAGNOSTIC := 0x90
  ATA_C_INITIALIZE_DEVICE_PARAMETERS := 0x91
  ATA_C_PACKET := 0xa0
  ATA_SEL_LBA := 0x40
  ATA_STAT_BUSY := 0x80
  ATA_STAT_ERR := 0x01
  ATA_ERR_ICRC := 0x80
  ATA_DIR_WRITE := 1
  SPD_INTR_ATA0 := 0x0001
  SPD_INTR_ATA := 0x0003
  SPD_IF_DMA_ENABLE := 0x04
  ATA_RES_ERR_NOTREADY := -501
  ATA_RES_ERR_TIMEOUT := -502
  ATA_RES_ERR_IO := -503
  ATA_RES_ERR_ICRC := -510

/-- The eleven opcodes named in `ata_cmd_table`, as bytes, in the order of
their first occurrence. -/
def table_opcodes (K : AtaConsts) : List Nat :=
  [K.ATA_C_READ_DMA % 256, K.ATA_C_IDENTIFY_DEVICE % 256,
   K.ATA_C_IDENTIFY_PACKET_DEVICE % 256, K.ATA_C_SET_FEATURES % 256,
   K.ATA_C_READ_DMA_EXT % 256, K.ATA_C_WRITE_DMA % 256, K.ATA_C_IDLE % 256,
   K.ATA_C_WRITE_DMA_EXT % 256, K.ATA_C_STANDBY_IMMEDIATE % 256,
   K.ATA_C_FLUSH_CACHE % 256, K.ATA_C_FLUSH_CACHE_EXT % 256]

/-- Assumption on the header: distinct command names are distinct opcodes. -/
def OpcodesDistinct (K : AtaConsts) : Prop := (table_opcodes K).Nodup

instance (K : AtaConsts) : Decidable (OpcodesDistinct K) := by
  unfold OpcodesDistinct; infer_instance

/-- Assumption on the header: the four result codes are negative, as the
tests `res < 0` of the driver take for granted. -/
def ErrorsNegative (K : AtaConsts) : Prop :=
  K.ATA_RES_ERR_NOTREADY < 0 ∧ K.ATA_RES_ERR_TIMEOUT < 0 ∧
  K.ATA_RES_ERR_IO < 0 ∧ K.ATA_RES_ERR_ICRC < 0

instance (K : AtaConsts) : Decidable (ErrorsNegative K) := by
  unfold ErrorsNegative; infer_instance

/-! ## The world seen by the driver -/

/-- Registers the driver touches: the fields of `ata_hwport` it uses and the
SPEED registers, named as in the source (`SPD_38` is `SPD_REG16(0x38)`). -/
inductive Reg where
  | r_control | r_select | r_feature | r_nsector | r_sector | r_lcyl | r_hcyl
  | r_command | r_status | r_error
  | SPD_38 | SPD_R_INTR_STAT | SPD_R_PIO_DATA | SPD_R_IF_CTRL | SPD_R_XFR_CTRL
  deriving DecidableEq

/-- One interaction with the hardware or the kernel. -/
inductive Event where
  | read (r : Reg) (v : Nat)
  | write (r : Reg) (v : Nat)
  | ClearEventFlag (bits : Nat)
  | WaitEventFlag (mask : Nat) (bits : Nat)
  | SetAlarm (lo hi : Nat) (res : Int)
  | CancelAlarm
  | dev9IntrEnable (mask : Nat)
  | dev9LEDCtl (ctl : Nat)
  | DelayThread (usec : Nat)
  | dev9DmaTransfer (ctrl buf bcr dir : Nat) (res : Int)
  | WaitSema
  | SignalSema
  deriving DecidableEq

/-- The oracle: value number `k` delivered by the hardware or the kernel. -/
abbrev Env := Nat → Int

/-- The record `atad_cmd_state` shared by `ata_io_start` and `ata_io_finish`
(`blkcount` is a `u16`, `type` and `dir` are `u8`). -/
structure atad_cmd_state_t where
  buf : Nat
  blkcount : Nat
  type : Nat
  dir : Nat
  deriving DecidableEq

/-- Driver state: the in-flight command record and the number of oracle
values consumed so far. -/
structure St where
  atad_cmd_state : atad_cmd_state_t
  k : Nat
  deriving DecidableEq

/-- What a driver function hands back: its `int` result, the state after
it, and the events it caused. -/
structure Ret where
  res : Int
  st : St
  ev : List Event
  deriving DecidableEq

/-- Value of a 16-bit register read performed in state `st`. -/
def reg_val (env : Env) (st : St) : Nat := (env st.k % 65536).toNat

/-- Value of a 32-bit word delivered in state `st` (`WaitEventFlag` bits). -/
def word_val (env : Env) (st : St) : Nat := (env st.k % 4294967296).toNat

/-- Result of a kernel call made in state `st`. -/
def int_val (env : Env) (st : St) : Int := env st.k

/-- State after one oracle value has been consumed. -/
def tick (st : St) : St := { st with k := st.k + 1 }

/-! ## The command classifier -/

/-- Entry of `ata_cmd_table` (`ata_cmd_info_t`, two `u8` fields). -/
structure ata_cmd_info_t where
  command : Nat
  type : Nat
  deriving DecidableEq

def ata_cmd_command_mask : Nat := 0x1f
def ata_cmd_command_bits (x : Nat) : Nat := x &&& ata_cmd_command_mask
def ata_cmd_flag_write_twice : Nat := 0x80
def ata_cmd_flag_use_timeout : Nat := 0x40
def ata_cmd_flag_dir : Nat := 0x20
def ata_cmd_flag_is_set (x y : Nat) : Nat := x &&& y

/-- The table `ata_cmd_table`, entry by entry as written in the source. -/
def ata_cmd_table (K : AtaConsts) : List ata_cmd_info_t :=
  [ ⟨K.ATA_C_READ_DMA % 256, 0x04 ||| ata_cmd_flag_use_timeout⟩
  , ⟨K.ATA_C_IDENTIFY_DEVICE % 256, 0x02⟩
  , ⟨K.ATA_C_IDENTIFY_PACKET_DEVICE % 256, 0x02⟩
  , ⟨K.ATA_C_SET_FEATURES % 256, 0x01 ||| ata_cmd_flag_use_timeout⟩
  , ⟨K.ATA_C_READ_DMA_EXT % 256,
      0x04 ||| ata_cmd_flag_use_timeout ||| ata_cmd_flag_write_twice⟩
  , ⟨K.ATA_C_WRITE_DMA % 256,
      0x04 ||| ata_cmd_flag_use_timeout ||| ata_cmd_flag_dir⟩
  , ⟨K.ATA_C_IDLE % 256, 0x01 ||| ata_cmd_flag_use_timeout⟩
  , ⟨K.ATA_C_WRITE_DMA_EXT % 256,
      0x04 ||| ata_cmd_flag_use_timeout ||| ata_cmd_flag_dir |||
        ata_cmd_flag_write_twice⟩
  , ⟨K.ATA_C_STANDBY_IMMEDIATE % 256, 0x01 ||| ata_cmd_flag_use_timeout⟩
  , ⟨K.ATA_C_FLUSH_CACHE % 256, 0x01 ||| ata_cmd_flag_use_timeout⟩
  , ⟨K.ATA_C_STANDBY_IMMEDIATE % 256, 0x01 ||| ata_cmd_flag_use_timeout⟩
  , ⟨K.ATA_C_FLUSH_CACHE_EXT % 256, 0x01 ||| ata_cmd_flag_use_timeout⟩ ]

/-- The scan of `find_ata_cmd` over a table: `result` is overwritten at
every entry whose opcode equals `(u8)command`. -/
def find_ata_cmd_scan (command : Nat) : List ata_cmd_info_t → Nat → Nat
  | [], result => result
  | e :: es, result =>
      find_ata_cmd_scan command es
        (if command % 256 = e.command then e.type else result)

/-- The function `find_ata_cmd`. -/
def find_ata_cmd (K : AtaConsts) (command : Nat) : Nat :=
  find_ata_cmd_scan command (ata_cmd_table K) 0

/-! ## Busy waits and device selection -/

def ATA_WAIT_BUSY : Nat := 0x80
def ATA_WAIT_BUSBUSY : Nat := 0x88
def ATA_EV_TIMEOUT : Nat := 1
def ATA_EV_COMPLETE : Nat := 2

/-- The delay `(i>>3) << (i>>2) << 5` of `gen_ata_wait_busy`, an `unsigned`
expression. -/
def busy_delay (i : Nat) : Nat :=
  ((((i >>> 3) <<< (i >>> 2)) % 4294967296) <<< 5) % 4294967296

/-- The loop of `gen_ata_wait_busy` with `n` iterations left and counter
`i`; the code runs it with `i = 0` and `n = 56`. -/
def gen_ata_wait_busy_from (K : AtaConsts) (env : Env) (bits : Nat) :
    Nat → Nat → St → Ret
  | 0, _, st => ⟨K.ATA_RES_ERR_TIMEOUT, st, []⟩
  | n + 1, i, st =>
      let v := reg_val env st
      if v &&& bits = 0 then ⟨0, tick st, [Event.read Reg.r_control v]⟩
      else
        let r := gen_ata_wait_busy_from K env bits n (i + 1) (tick st)
        ⟨r.res, r.st,
          Event.read Reg.r_control v ::
            ((if busy_delay i ≠ 0 then [Event.DelayThread (busy_delay i)]
              else []) ++ r.ev)⟩

/-- The function `gen_ata_wait_busy`. -/
def gen_ata_wait_busy (K : AtaConsts) (env : Env) (bits : Nat) (st : St) : Ret :=
  gen_ata_wait_busy_from K env bits 56 0 st

/-- The function `ata_device_select`. -/
def ata_device_select (K : AtaConsts) (env : Env) (device : Nat) (st : St) : Ret :=
  let r1 := gen_ata_wait_busy K env ATA_WAIT_BUSBUSY st
  if r1.res < 0 then r1
  else
    let v := reg_val env r1.st
    let st2 := tick r1.st
    if (v >>> 4) &&& 1 = device then
      ⟨0, st2, r1.ev ++ [Event.read Reg.r_select v]⟩
    else
      let r4 := gen_ata_wait_busy K env ATA_WAIT_BUSBUSY (tick (tick st2))
      ⟨r4.res, r4.st,
        r1.ev ++ [Event.read Reg.r_select v,
                  Event.write Reg.r_select ((device &&& 1) <<< 4),
                  Event.read Reg.r_control (reg_val env st2),
                  Event.read Reg.r_control (reg_val env (tick st2))] ++ r4.ev⟩

/-! ## Issuing a command -/

/-- Arguments of `ata_io_start` (`blkcount` is a `u32`, the others `u16`). -/
structure io_args where
  buf : Nat
  blkcount : Nat
  feature : Nat
  nsector : Nat
  sector : Nat
  lcyl : Nat
  hcyl : Nat
  select : Nat
  command : Nat
  deriving DecidableEq

/-- The first pass over the address registers, made when the class has
`ata_cmd_flag_write_twice`. -/
def high_byte_writes (a : io_args) : List Event :=
  [ Event.write Reg.r_feature ((a.feature >>> 8) &&& 0xff)
  , Event.write Reg.r_nsector ((a.nsector >>> 8) &&& 0xff)
  , Event.write Reg.r_sector ((a.sector >>> 8) &&& 0xff)
  , Event.write Reg.r_lcyl ((a.lcyl >>> 8) &&& 0xff)
  , Event.write Reg.r_hcyl ((a.hcyl >>> 8) &&& 0xff) ]

/-- The second pass over the address registers, always made. -/
def low_byte_writes (a : io_args) : List Event :=
  [ Event.write Reg.r_feature (a.feature &&& 0xff)
  , Event.write Reg.r_nsector (a.nsector &&& 0xff)
  , Event.write Reg.r_sector (a.sector &&& 0xff)
  , Event.write Reg.r_lcyl (a.lcyl &&& 0xff)
  , Event.write Reg.r_hcyl (a.hcyl &&& 0xff) ]

/-- The `switch (command)` of `ata_io_start`: commands that may be issued
while the device is not ready. -/
def legal_when_not_ready (K : AtaConsts) (command : Nat) : Prop :=
  command = K.ATA_C_DEVICE_RESET ∨
  command = K.ATA_C_EXECUTE_DEVICE_DIAGNOSTIC ∨
  command = K.ATA_C_INITIALIZE_DEVICE_PARAMETERS ∨
  command = K.ATA_C_PACKET ∨
  command = K.ATA_C_IDENTIFY_PACKET_DEVICE

instance (K : AtaConsts) (command : Nat) :
    Decidable (legal_when_not_ready K command) := by
  unfold legal_when_not_ready; infer_instance

/-- The function `ata_io_start`. -/
def ata_io_start (K : AtaConsts) (env : Env) (a : io_args) (st : St) : Ret :=
  let device := (a.select >>> 4) &&& 1
  let e0 := [Event.ClearEventFlag 0]
  let r1 := ata_device_select K env device st
  if r1.res ≠ 0 then ⟨r1.res, r1.st, e0 ++ r1.ev⟩
  else
    let type := find_ata_cmd K a.command
    if ata_cmd_command_bits type = 0 then
      ⟨K.ATA_RES_ERR_NOTREADY,
        { r1.st with atad_cmd_state :=
            { r1.st.atad_cmd_state with type := ata_cmd_command_bits type } },
        e0 ++ r1.ev⟩
    else
      let st3 : St :=
        { r1.st with atad_cmd_state :=
            { buf := a.buf
              blkcount := a.blkcount % 65536
              type := ata_cmd_command_bits type
              dir := if ata_cmd_flag_is_set type ata_cmd_flag_dir ≠ 0 then 1 else 0 } }
      let v := reg_val env st3
      let st4 := tick st3
      let e4 := e0 ++ r1.ev ++ [Event.read Reg.r_control v]
      if v &&& 0x40 = 0 ∧ ¬ legal_when_not_ready K a.command then
        ⟨K.ATA_RES_ERR_NOTREADY, st4, e4⟩
      else
        let timed := ata_cmd_flag_is_set type ata_cmd_flag_use_timeout ≠ 0
        let alarm := int_val env st4
        if timed ∧ alarm < 0 then
          ⟨alarm, tick st4, e4 ++ [Event.SetAlarm 0x41eb0000 0 alarm]⟩
        else
          ⟨0, if timed then tick st4 else st4,
            e4 ++ (if timed then [Event.SetAlarm 0x41eb0000 0 alarm] else [])
               ++ (if ata_cmd_command_bits type = 1
                   then [Event.dev9IntrEnable K.SPD_INTR_ATA0] else [])
               ++ [Event.write Reg.r_control (if timed then 0 else 2)]
               ++ (if ata_cmd_flag_is_set type ata_cmd_flag_write_twice ≠ 0
                   then high_byte_writes a else [])
               ++ low_byte_writes a
               ++ [ Event.write Reg.r_select ((a.select ||| K.ATA_SEL_LBA) &&& 0xff)
                  , Event.write Reg.r_command (a.command &&& 0xff)
                  , Event.dev9LEDCtl 1 ]⟩

/-! ## Completing a command -/

/-- A register value read, the state after the read, and the events. -/
structure Rd where
  val : Nat
  st : St
  ev : List Event
  deriving DecidableEq

/-- The loop `for (i = 0; i < 20; i++) if ((dma_stat = SPD_REG16(0x38) & 0x1f))
goto next_transfer;` with `n` iterations left; `val` is `dma_stat` after it. -/
def dma_poll (env : Env) : Nat → St → Rd
  | 0, st => ⟨0, st, []⟩
  | n + 1, st =>
      let v := reg_val env st
      if v &&& 0x1f ≠ 0 then ⟨v &&& 0x1f, tick st, [Event.read Reg.SPD_38 v]⟩
      else
        let r := dma_poll env n (tick st)
        ⟨r.val, r.st, Event.read Reg.SPD_38 v :: r.ev⟩

/-- How one pass of the `while (blkcount)` body of `ata_dma_complete`
reaches (or misses) the label `next_transfer`. -/
inductive DmaReady where
  | next_transfer (dma_stat : Nat)
  | fail (res : Int)
  | again
  deriving DecidableEq

/-- Outcome of the first half of the loop body, with state and events. -/
structure DmaWait where
  out : DmaReady
  st : St
  ev : List Event
  deriving DecidableEq

/-- The body of the `while (blkcount)` loop of `ata_dma_complete` up to the
label `next_transfer`. -/
def dma_wait (K : AtaConsts) (env : Env) (st : St) : DmaWait :=
  let p := dma_poll env 20 st
  if p.val ≠ 0 then ⟨DmaReady.next_transfer p.val, p.st, p.ev⟩
  else
    let bits := word_val env p.st
    let st2 := tick p.st
    let e2 := p.ev ++ [Event.dev9IntrEnable K.SPD_INTR_ATA,
                       Event.WaitEventFlag (ATA_EV_TIMEOUT ||| ATA_EV_COMPLETE) bits]
    if bits &&& ATA_EV_TIMEOUT ≠ 0 then
      ⟨DmaReady.fail K.ATA_RES_ERR_TIMEOUT, st2, e2⟩
    else
      let intr := reg_val env st2
      let st3 := tick st2
      let e3 := e2 ++ [Event.read Reg.SPD_R_INTR_STAT intr]
      if intr &&& 0x02 = 0 then
        let ctl := reg_val env st3
        let st4 := tick st3
        let e4 := e3 ++ [Event.read Reg.r_control ctl]
        if ctl &&& 0x01 ≠ 0 then
          let err := reg_val env st4
          ⟨DmaReady.fail (if (err &&& 0xff) &&& K.ATA_ERR_ICRC ≠ 0
              then K.ATA_RES_ERR_ICRC else K.ATA_RES_ERR_IO),
            tick st4, e4 ++ [Event.read Reg.r_error err]⟩
        else ⟨DmaReady.again, st4, e4⟩
      else
        let d := reg_val env st3
        ⟨DmaReady.next_transfer (d &&& 0x1f), tick st3,
          e3 ++ [Event.read Reg.SPD_38 d]⟩

/-- The function `ata_dma_complete`; `fuel` bounds the number of times the
condition of `while (blkcount)` is evaluated.  The callers pass the `u16`
field `atad_cmd_state.blkcount`, so `blkcount` is a natural number. -/
def ata_dma_complete (K : AtaConsts) (env : Env) :
    Nat → Nat → Nat → Nat → St → Option Ret
  | 0, _, _, _, _ => none
  | fuel + 1, buf, blkcount, dir, st =>
      if blkcount = 0 then some ⟨0, st, []⟩
      else
        let w := dma_wait K env st
        match w.out with
        | DmaReady.fail res => some ⟨res, w.st, w.ev⟩
        | DmaReady.again =>
            match ata_dma_complete K env fuel buf blkcount dir w.st with
            | none => none
            | some r => some ⟨r.res, r.st, w.ev ++ r.ev⟩
        | DmaReady.next_transfer dma_stat =>
            let count := if blkcount < dma_stat then blkcount else dma_stat
            let nbytes := (count * 512) % 4294967296
            let res := int_val env w.st
            let e := Event.dev9DmaTransfer 0 buf
                        (((nbytes <<< 9) % 4294967296) ||| 32) dir res
            if res < 0 then some ⟨res, tick w.st, w.ev ++ [e]⟩
            else
              match ata_dma_complete K env fuel (buf + nbytes)
                      (blkcount - count) dir (tick w.st) with
              | none => none
              | some r => some ⟨r.res, r.st, w.ev ++ e :: r.ev⟩

/-- The loop `for (i = 0; i < 100; i++) if ((stat = SPD_REG16(SPD_R_INTR_STAT)
& 0x01)) break;` with `n` iterations left; `val` is `stat` after it. -/
def intr_poll (env : Env) : Nat → St → Rd
  | 0, st => ⟨0, st, []⟩
  | n + 1, st =>
      let v := reg_val env st
      if v &&& 0x01 ≠ 0 then
        ⟨v &&& 0x01, tick st, [Event.read Reg.SPD_R_INTR_STAT v]⟩
      else
        let r := intr_poll env n (tick st)
        ⟨r.val, r.st, Event.read Reg.SPD_R_INTR_STAT v :: r.ev⟩

/-- The guard `--atad_cmd_state.blkcount != -1` of the PIO loop: the new
value of the `u16` field, and the comparison of that value, promoted to
`int`, with `-1`. -/
def pio_guard (blkcount : Nat) : Nat × Bool :=
  let b := (blkcount + 65535) % 65536
  (b, decide ((b : Int) ≠ -1))

/-- The loop `while (--atad_cmd_state.blkcount != -1)` of `ata_io_finish`;
`res` is the variable `res` on entry, `fuel` bounds the evaluations of the
guard.  The result is `res` and the state where the loop is left, by
`goto finish` or by the guard. -/
def pio_pump (K : AtaConsts) (env : Env) : Nat → Int → St → Option Ret
  | 0, _, _ => none
  | fuel + 1, res, st =>
      let g := pio_guard st.atad_cmd_state.blkcount
      let st1 : St :=
        { st with atad_cmd_state := { st.atad_cmd_state with blkcount := g.1 } }
      if g.2 then
        let r := gen_ata_wait_busy K env ATA_WAIT_BUSY st1
        if r.res < 0 then
          some ⟨r.res, r.st, Event.write Reg.SPD_R_PIO_DATA 0 :: r.ev⟩
        else
          match pio_pump K env fuel r.res r.st with
          | none => none
          | some q =>
              some ⟨q.res, q.st, Event.write Reg.SPD_R_PIO_DATA 0 :: (r.ev ++ q.ev)⟩
      else some ⟨res, st1, []⟩

/-- The label `finish:` of `ata_io_finish`: cancel the alarm, turn the LED
off, return `res`. -/
def io_finish_cleanup (res : Int) (st : St) (ev : List Event) : Ret :=
  ⟨res, st, ev ++ [Event.CancelAlarm, Event.dev9LEDCtl 0]⟩

/-- The part of `ata_io_finish` from `if (res) goto finish;` to the end. -/
def io_finish_status (K : AtaConsts) (env : Env) (res : Int) (st : St)
    (ev : List Event) : Ret :=
  if res ≠ 0 then io_finish_cleanup res st ev
  else
    let s1 := reg_val env st
    let w : Ret :=
      if s1 &&& K.ATA_STAT_BUSY ≠ 0 then
        gen_ata_wait_busy K env ATA_WAIT_BUSY (tick st)
      else ⟨res, tick st, []⟩
    let s2 := reg_val env w.st
    let e2 := ev ++ Event.read Reg.r_status s1 :: (w.ev ++ [Event.read Reg.r_status s2])
    if s2 &&& K.ATA_STAT_ERR ≠ 0 then
      let err := reg_val env (tick w.st)
      io_finish_cleanup
        (if (err &&& 0xff) &&& K.ATA_ERR_ICRC ≠ 0
          then K.ATA_RES_ERR_ICRC else K.ATA_RES_ERR_IO)
        (tick (tick w.st)) (e2 ++ [Event.read Reg.r_error err])
    else io_finish_cleanup w.res (tick w.st) e2

/-- The function `ata_io_finish`; `fuel` bounds the DMA completion loop and
the PIO loop. -/
def ata_io_finish (K : AtaConsts) (env : Env) (fuel : Nat) (st : St) : Option Ret :=
  let type := st.atad_cmd_state.type
  if type = 1 then
    let bits := word_val env st
    let e1 := [Event.WaitEventFlag (ATA_EV_TIMEOUT ||| ATA_EV_COMPLETE) bits]
    if bits &&& ATA_EV_TIMEOUT ≠ 0 then
      some ⟨K.ATA_RES_ERR_TIMEOUT, tick st, e1⟩
    else some (io_finish_status K env 0 (tick st) e1)
  else if type = 4 then
    match ata_dma_complete K env fuel st.atad_cmd_state.buf
            st.atad_cmd_state.blkcount st.atad_cmd_state.dir st with
    | none => none
    | some d =>
        if d.res < 0 then some (io_finish_cleanup d.res d.st d.ev)
        else
          let p := intr_poll env 100 d.st
          if p.val = 0 then
            let bits := word_val env p.st
            some (io_finish_status K env
              (if bits &&& ATA_EV_TIMEOUT ≠ 0 then K.ATA_RES_ERR_TIMEOUT else d.res)
              (tick p.st)
              (d.ev ++ p.ev ++ [Event.dev9IntrEnable K.SPD_INTR_ATA0,
                Event.WaitEventFlag (ATA_EV_TIMEOUT ||| ATA_EV_COMPLETE) bits]))
          else some (io_finish_status K env d.res p.st (d.ev ++ p.ev))
  else
    let stat := reg_val env st
    let w := gen_ata_wait_busy K env ATA_WAIT_BUSY (tick st)
    if w.res < 0 then
      some (io_finish_cleanup w.res w.st (Event.read Reg.r_control stat :: w.ev))
    else
      match pio_pump K env fuel w.res w.st with
      | none => none
      | some q =>
          some (io_finish_status K env q.res q.st
            (Event.read Reg.r_control stat :: (w.ev ++ q.ev)))

/-! ## Sector I/O -/

/-- The function `ata_set_dir`. -/
def ata_set_dir (K : AtaConsts) (env : Env) (dir : Nat) (st : St) : St × List Event :=
  let v := reg_val env st
  (tick st,
   [ Event.write Reg.SPD_38 3
   , Event.read Reg.SPD_R_IF_CTRL v
   , Event.write Reg.SPD_R_IF_CTRL
       ((v &&& 1) ||| (if dir = K.ATA_DIR_WRITE then 0x4c else 0x4e))
   , Event.write Reg.SPD_R_XFR_CTRL ((dir ||| 0x06) % 65536) ])

/-- The per-chunk set-up of `ata_device_sector_io`: the arguments of the
call `ata_io_start(buf, len, 0, len, sector, lcyl, hcyl, select, command)`.
The local `len` is a `u16`, like `sector`, `lcyl`, `hcyl`, `select` and
`command`. -/
def sector_io_args (K : AtaConsts) (lba_48bit device buf lba nsectors dir : Nat) :
    io_args :=
  let lcyl := ((lba >>> 8) &&& 0xff) % 65536
  let hcyl := ((lba >>> 16) &&& 0xff) % 65536
  if lba_48bit ≠ 0 then
    let len := (if nsectors > 65536 then 65536 else nsectors) % 65536
    { buf := buf, blkcount := len, feature := 0, nsector := len
      sector := ((((lba >>> 16) &&& 0xff00) ||| (lba &&& 0xff))) % 65536
      lcyl := lcyl, hcyl := hcyl
      select := ((device <<< 4) &&& 0xffff) % 65536
      command := (if dir = 1 then K.ATA_C_WRITE_DMA_EXT else K.ATA_C_READ_DMA_EXT) % 65536 }
  else
    let len := (if nsectors > 256 then 256 else nsectors) % 65536
    { buf := buf, blkcount := len, feature := 0, nsector := len
      sector := (lba &&& 0xff) % 65536
      lcyl := lcyl, hcyl := hcyl
      select := (((device <<< 4) ||| ((lba >>> 24) &&& 0xf)) &&& 0xffff) % 65536
      command := (if dir = 1 then K.ATA_C_WRITE_DMA else K.ATA_C_READ_DMA) % 65536 }

/-- One pass of the retry loop, as seen by the caller: the arguments given
to `ata_io_start`, its result, and the result of `ata_io_finish` when it
was called. -/
structure Attempt where
  args : io_args
  start_res : Int
  finish_res : Option Int
  deriving DecidableEq

/-- What the retry loop of one chunk hands back; `attempts` is a record of
the calls made, kept for stating properties. -/
structure RetryRet where
  ret : Ret
  attempts : List Attempt
  deriving DecidableEq

/-- The loop `for (retries = 3; retries > 0; retries--)` of
`ata_device_sector_io` with `n` passes left, over any behaviour `io_start`,
`io_finish` of the two calls (`io_finish` yields `none` when it does not
return).  `res` is the variable `res` before the loop. -/
def sector_io_retry (K : AtaConsts) (env : Env)
    (io_start : io_args → St → Ret) (io_finish : St → Option Ret)
    (a : io_args) (dir : Nat) : Nat → Int → St → Option RetryRet
  | 0, res, st => some ⟨⟨res, st, []⟩, []⟩
  | n + 1, _, st =>
      let r1 := io_start a st
      if r1.res ≠ 0 then some ⟨r1, [⟨a, r1.res, none⟩]⟩
      else
        let d := ata_set_dir K env dir r1.st
        match io_finish d.1 with
        | none => none
        | some r2 =>
            let v := reg_val env r2.st
            let ev := r1.ev ++ d.2 ++ r2.ev ++
              [ Event.read Reg.SPD_R_IF_CTRL v
              , Event.write Reg.SPD_R_IF_CTRL
                  (v &&& (65535 ^^^ (K.SPD_IF_DMA_ENABLE % 65536))) ]
            if r2.res ≠ K.ATA_RES_ERR_ICRC then
              some ⟨⟨r2.res, tick r2.st, ev⟩, [⟨a, r1.res, some r2.res⟩]⟩
            else
              match sector_io_retry K env io_start io_finish a dir n r2.res
                      (tick r2.st) with
              | none => none
              | some q =>
                  some ⟨⟨q.ret.res, q.ret.st, ev ++ q.ret.ev⟩,
                        ⟨a, r1.res, some r2.res⟩ :: q.attempts⟩

/-- Record of one chunk: the arguments given to `ata_io_start` and the
attempts made with them. -/
structure ChunkLog where
  args : io_args
  attempts : List Attempt
  deriving DecidableEq

/-- What `ata_device_sector_io` hands back; `chunks` is the record of the
chunks it went through. -/
structure SioRet where
  ret : Ret
  chunks : List ChunkLog
  deriving DecidableEq

/-- The loop `while (res == 0 && nsectors > 0)` of `ata_device_sector_io`;
`fuel` bounds the evaluations of its condition.  `lba` and `nsectors` are
`u32`. -/
def sector_io_loop (K : AtaConsts) (env : Env)
    (io_start : io_args → St → Ret) (io_finish : St → Option Ret)
    (lba_48bit device dir : Nat) :
    Nat → Int → Nat → Nat → Nat → St → Option SioRet
  | 0, _, _, _, _, _ => none
  | fuel + 1, res, buf, lba, nsectors, st =>
      if res = 0 ∧ nsectors > 0 then
        let a := sector_io_args K lba_48bit device buf lba nsectors dir
        match sector_io_retry K env io_start io_finish a dir 3 res st with
        | none => none
        | some r =>
            let len := a.blkcount
            match sector_io_loop K env io_start io_finish lba_48bit device dir fuel
                    r.ret.res (buf + len * 512) ((lba + len) % 4294967296)
                    ((nsectors + 4294967296 - len) % 4294967296) r.ret.st with
            | none => none
            | some q =>
                some ⟨⟨q.ret.res, q.ret.st, r.ret.ev ++ q.ret.ev⟩,
                      ⟨a, r.attempts⟩ :: q.chunks⟩
      else some ⟨⟨res, st, []⟩, []⟩

/-- The function `ata_device_sector_io` over any behaviour of the two calls
it makes. -/
def ata_device_sector_io_with (K : AtaConsts) (env : Env)
    (io_start : io_args → St → Ret) (io_finish : St → Option Ret)
    (lba_48bit : Nat) (fuel device buf lba nsectors dir : Nat) (st : St) :
    Option SioRet :=
  match sector_io_loop K env io_start io_finish lba_48bit device dir fuel 0
          buf lba nsectors st with
  | none => none
  | some q =>
      some ⟨⟨q.ret.res, q.ret.st,
             Event.WaitSema :: (q.ret.ev ++ [Event.SignalSema])⟩, q.chunks⟩

/-- The function `ata_device_sector_io`, calling the driver's own
`ata_io_start` and `ata_io_finish`. -/
def ata_device_sector_io (K : AtaConsts) (env : Env) (lba_48bit : Nat)
    (fuel device buf lba nsectors dir : Nat) (st : St) : Option SioRet :=
  ata_device_sector_io_with K env (ata_io_start K env) (ata_io_finish K env fuel)
    lba_48bit fuel device buf lba nsectors dir st

/-! ## Reading event lists -/

/-- Whether an event is a register write. -/
def Event.is_write : Event → Bool
  | Event.write _ _ => true
  | _ => false

/-! ## The DMA completion loop as the specification describes it -/

/-- Number of 512-byte blocks a `dev9DmaTransfer` event asks for, read off
its descriptor `(nbytes << 9) | 32` (`0` for any other event). -/
def transfer_blocks : Event → Nat
  | Event.dev9DmaTransfer _ _ bcr _ _ => bcr / 2 ^ 18
  | _ => 0

/-- What the specification says of the events of a successful DMA
completion loop (§4.4), as a check on an event list, for initial buffer
`buf`, initial block count `b` and direction `dir`.  `done` is the number of
blocks transferred so far and `burst` the burst size last read from
`SPD_REG16(0x38)`.  Every transfer has burst size at most `31`, count
`min (b - done) burst`, byte count `512` times that (in the descriptor
`(nbytes << 9) | 32`), direction `dir` and address `buf + 512 * done`; at the
end nothing remains. -/
def DmaTrace (buf b dir : Nat) : Nat → Nat → List Event → Bool
  | done, _, [] => decide (done = b)
  | done, _, Event.read Reg.SPD_38 v :: es => DmaTrace buf b dir done (v &&& 0x1f) es
  | done, burst, Event.dev9DmaTransfer ctrl addr bcr d _ :: es =>
      decide (burst ≤ 31) && decide (ctrl = 0) && decide (addr = buf + 512 * done) &&
      decide (bcr = ((512 * min (b - done) burst) <<< 9) ||| 32) && decide (d = dir) &&
      DmaTrace buf b dir (done + min (b - done) burst) burst es
  | done, burst, _ :: es => DmaTrace buf b dir done burst es

/-! ## A device that answers every DMA command with a CRC error -/

/-- An oracle under which every DMA command is accepted and then fails with
the interface CRC error: per attempt, 30 values (the device is idle and
ready; after 20 empty polls the wait ends with `COMPLETE`, the DMA-complete
bit is clear, the control register shows the error bit and the error
register the ICRC bit). -/
def crc_env : Env := fun k =>
  match k % 30 with
  | 0 => 0x40
  | 2 => 0x40
  | 25 => 2
  | 27 => 0x41
  | 28 => 0x84
  | _ => 0

/-! ## The busy wait as the specification describes it -/

/-- The state after `j` further register reads. -/
def after_reads (st : St) (j : Nat) : St := { st with k := st.k + j }

/-- The status that poll `j` (counted from `0`) of a wait started in `st`
reads from the control register. -/
def poll_status (env : Env) (st : St) (j : Nat) : Nat := reg_val env (after_reads st j)

/-- Poll `j` finds at least one of the monitored bits set. -/
def poll_busy (env : Env) (bits : Nat) (st : St) (j : Nat) : Bool :=
  poll_status env st j &&& bits != 0

/-- The backoff formula `((i >> 3) << (i >> 2)) << 5` of the specification,
over the natural numbers (nothing is cut off). -/
def backoff_delay (i : Nat) : Nat := ((i >>> 3) <<< (i >>> 2)) <<< 5

/-- What the specification says of the failed polls `i, ..., i + n - 1`: each
reads the status and then, when the backoff delay is not zero, sleeps for
it. -/
def failed_polls (env : Env) (st : St) : Nat → Nat → List Event
  | _, 0 => []
  | i, n + 1 =>
      Event.read Reg.r_control (poll_status env st i) ::
        ((if backoff_delay i = 0 then [] else [Event.DelayThread (backoff_delay i)]) ++
          failed_polls env st (i + 1) n)

/-- Reads of the control register. -/
def Event.is_status_read : Event → Bool
  | Event.read Reg.r_control _ => true
  | _ => false

/-! ## Lemmas -/

/-! ### The classifier, device selection and `ata_io_start` -/

theorem find_ata_cmd_scan_last (c : Nat) (tbl : List ata_cmd_info_t) (init : Nat) :
    find_ata_cmd_scan c tbl init =
      match tbl.reverse.find? (fun e => decide (e.command = c % 256)) with
      | some e => e.type
      | none => init := by
  induction tbl generalizing init with
  | nil => simp [find_ata_cmd_scan]
  | cons e es ih =>
      rw [find_ata_cmd_scan, ih, List.reverse_cons, List.find?_append]
      cases h : es.reverse.find? (fun e => decide (e.command = c % 256)) with
      | some x => simp
      | none =>
          by_cases hc : c % 256 = e.command
          · simp [hc]
          · have : ¬ e.command = c % 256 := fun h => hc h.symm
            simp [hc, this]

theorem ata_cmd_table_type_ne_zero (K : AtaConsts) :
    ∀ e ∈ ata_cmd_table K, e.type ≠ 0 := by
  intro e he
  simp only [ata_cmd_table, List.mem_cons, List.mem_singleton, List.not_mem_nil, or_false] at he
  rcases he with h | h | h | h | h | h | h | h | h | h | h | h <;> subst h <;> dsimp only <;> decide

theorem find_ata_cmd_eq_zero_iff (K : AtaConsts) (c : Nat) :
    find_ata_cmd K c = 0 ↔ ∀ e ∈ ata_cmd_table K, e.command ≠ c % 256 := by
  unfold find_ata_cmd
  rw [find_ata_cmd_scan_last]
  cases h : (ata_cmd_table K).reverse.find? (fun e => decide (e.command = c % 256)) with
  | none =>
      simp only [true_iff]
      intro e he
      have := List.find?_eq_none.mp h e (List.mem_reverse.mpr he)
      simpa using this
  | some x =>
      have hx : x ∈ ata_cmd_table K := List.mem_reverse.mp (List.mem_of_find?_eq_some h)
      have hp : x.command = c % 256 := by simpa using List.find?_some h
      constructor
      · intro h0
        exact absurd h0 (ata_cmd_table_type_ne_zero K x hx)
      · intro hall
        exact absurd hp (hall x hx)

theorem ata_cmd_table_command_inj (K : AtaConsts) (hK : OpcodesDistinct K) :
    ∀ e1 ∈ ata_cmd_table K, ∀ e2 ∈ ata_cmd_table K, e1.command = e2.command → e1 = e2 := by
  have hsub : ∀ e ∈ ata_cmd_table K, e ∈ (ata_cmd_table K).eraseIdx 10 := by
    intro e he
    simp only [ata_cmd_table, List.mem_cons, List.mem_singleton, List.not_mem_nil, or_false] at he
    simp only [ata_cmd_table, List.eraseIdx, List.mem_cons, List.mem_singleton, List.not_mem_nil,
      or_false]
    tauto
  have hmap : ((ata_cmd_table K).eraseIdx 10).map ata_cmd_info_t.command = table_opcodes K := by
    simp [ata_cmd_table, List.eraseIdx, table_opcodes]
  have hnd : (((ata_cmd_table K).eraseIdx 10).map ata_cmd_info_t.command).Nodup := by
    rw [hmap]; exact hK
  intro e1 h1 e2 h2 h
  exact List.inj_on_of_nodup_map hnd (hsub e1 h1) (hsub e2 h2) h

theorem find?_reverse_of_unique {α : Type} (p : α → Bool) (l : List α)
    (huniq : ∀ x ∈ l, ∀ y ∈ l, p x = true → p y = true → x = y) :
    l.find? p = l.reverse.find? p := by
  cases h : l.find? p with
  | none =>
      symm
      rw [List.find?_eq_none] at h ⊢
      intro x hx
      exact h x (List.mem_reverse.mp hx)
  | some x =>
      have hx : x ∈ l := List.mem_of_find?_eq_some h
      have hpx : p x = true := List.find?_some h
      cases h2 : l.reverse.find? p with
      | none =>
          rw [List.find?_eq_none] at h2
          exact absurd hpx (h2 x (List.mem_reverse.mpr hx))
      | some y =>
          have hy : y ∈ l := List.mem_reverse.mp (List.mem_of_find?_eq_some h2)
          have hpy : p y = true := List.find?_some h2
          rw [huniq x hx y hy hpx hpy]

theorem gen_ata_wait_busy_from_cmd (K : AtaConsts) (env : Env) (bits n i : Nat) (st : St) :
    (gen_ata_wait_busy_from K env bits n i st).st.atad_cmd_state = st.atad_cmd_state := by
  induction n generalizing i st with
  | zero => simp [gen_ata_wait_busy_from]
  | succ n ih =>
      simp only [gen_ata_wait_busy_from]
      by_cases h : reg_val env st &&& bits = 0
      · simp [h, tick]
      · simp [h, ih, tick]

theorem gen_ata_wait_busy_from_no_write (K : AtaConsts) (env : Env) (bits n i : Nat) (st : St) :
    ∀ e ∈ (gen_ata_wait_busy_from K env bits n i st).ev, e.is_write = false := by
  induction n generalizing i st with
  | zero => simp [gen_ata_wait_busy_from]
  | succ n ih =>
      simp only [gen_ata_wait_busy_from]
      by_cases h : reg_val env st &&& bits = 0
      · simp [h, Event.is_write]
      · simp only [h, if_false]
        intro e he
        simp only [List.mem_cons, List.mem_append] at he
        rcases he with h | h | h
        · subst h; rfl
        · split_ifs at h
          · simp only [List.mem_singleton] at h; subst h; rfl
          · simp at h
        · exact ih _ _ e h

theorem ata_device_select_cmd (K : AtaConsts) (env : Env) (device : Nat) (st : St) :
    (ata_device_select K env device st).st.atad_cmd_state = st.atad_cmd_state := by
  simp only [ata_device_select, gen_ata_wait_busy]
  split_ifs <;> simp [gen_ata_wait_busy_from_cmd, tick]

theorem ata_device_select_writes (K : AtaConsts) (env : Env) (device : Nat) (st : St) :
    ∀ e ∈ (ata_device_select K env device st).ev, e.is_write = true →
      e = Event.write Reg.r_select ((device &&& 1) <<< 4) := by
  intro e he hw
  simp only [ata_device_select, gen_ata_wait_busy] at he
  split_ifs at he
  · rw [gen_ata_wait_busy_from_no_write K env _ _ _ _ e he] at hw; cases hw
  · simp only [List.mem_append, List.mem_singleton] at he
    rcases he with h | h
    · rw [gen_ata_wait_busy_from_no_write K env _ _ _ _ e h] at hw; cases hw
    · subst h; cases hw
  · simp only [List.mem_append, List.mem_cons, List.mem_singleton, List.not_mem_nil,
      or_false] at he
    rcases he with (h | h | h | h | h) | h
    · rw [gen_ata_wait_busy_from_no_write K env _ _ _ _ e h] at hw; cases hw
    · subst h; cases hw
    · exact h
    · subst h; cases hw
    · subst h; cases hw
    · rw [gen_ata_wait_busy_from_no_write K env _ _ _ _ e h] at hw; cases hw

theorem find_ata_cmd_of_mem (K : AtaConsts) (hK : OpcodesDistinct K) (c : Nat)
    (e : ata_cmd_info_t) (he : e ∈ ata_cmd_table K) (hc : e.command = c % 256) :
    find_ata_cmd K c = e.type := by
  unfold find_ata_cmd
  rw [find_ata_cmd_scan_last]
  cases h : (ata_cmd_table K).reverse.find? (fun e => decide (e.command = c % 256)) with
  | none =>
      have := List.find?_eq_none.mp h e (List.mem_reverse.mpr he)
      simp [hc] at this
  | some x =>
      have hx : x ∈ ata_cmd_table K := List.mem_reverse.mp (List.mem_of_find?_eq_some h)
      have hp : x.command = c % 256 := by simpa using List.find?_some h
      rw [ata_cmd_table_command_inj K hK x hx e he (hp.trans hc.symm)]

theorem find_ata_cmd_write_twice (K : AtaConsts) (hK : OpcodesDistinct K) (c : Nat) :
    ata_cmd_flag_is_set (find_ata_cmd K c) ata_cmd_flag_write_twice ≠ 0 ↔
      (c % 256 = K.ATA_C_READ_DMA_EXT % 256 ∨ c % 256 = K.ATA_C_WRITE_DMA_EXT % 256) := by
  constructor
  · intro hf
    by_cases h0 : find_ata_cmd K c = 0
    · rw [h0] at hf; exact absurd rfl hf
    · rw [find_ata_cmd_eq_zero_iff] at h0
      push_neg at h0
      obtain ⟨e, he, hc⟩ := h0
      rw [find_ata_cmd_of_mem K hK c e he hc] at hf
      simp only [ata_cmd_table, List.mem_cons, List.mem_singleton, List.not_mem_nil,
        or_false] at he
      rcases he with h | h | h | h | h | h | h | h | h | h | h | h <;> subst h
      all_goals dsimp only at hf hc
      all_goals first
        | exact absurd (by decide) hf
        | exact Or.inl hc.symm
        | exact Or.inr hc.symm
  · intro h
    rcases h with h | h
    · rw [find_ata_cmd_of_mem K hK c ⟨K.ATA_C_READ_DMA_EXT % 256,
        0x04 ||| ata_cmd_flag_use_timeout ||| ata_cmd_flag_write_twice⟩
        (by simp [ata_cmd_table]) h.symm]
      dsimp only
      decide
    · rw [find_ata_cmd_of_mem K hK c ⟨K.ATA_C_WRITE_DMA_EXT % 256,
        0x04 ||| ata_cmd_flag_use_timeout ||| ata_cmd_flag_dir ||| ata_cmd_flag_write_twice⟩
        (by simp [ata_cmd_table]) h.symm]
      dsimp only
      decide

theorem tick_k (st : St) : (tick st).k = st.k + 1 := rfl

theorem tick_cmd (st : St) : (tick st).atad_cmd_state = st.atad_cmd_state := rfl

theorem gen_ata_wait_busy_from_k_le (K : AtaConsts) (env : Env) (bits n i : Nat) (st : St) :
    st.k ≤ (gen_ata_wait_busy_from K env bits n i st).st.k := by
  induction n generalizing i st with
  | zero => simp [gen_ata_wait_busy_from]
  | succ n ih =>
      simp only [gen_ata_wait_busy_from]
      by_cases h : reg_val env st &&& bits = 0
      · simp [h, tick]
      · simp only [h, if_false]
        have := ih (i + 1) (tick st)
        simp only [tick] at this ⊢
        omega

theorem gen_ata_wait_busy_from_env (K : AtaConsts) (env env2 : Env) (bits n i : Nat) (st : St)
    (h : ∀ j, j < (gen_ata_wait_busy_from K env bits n i st).st.k → env2 j = env j) :
    gen_ata_wait_busy_from K env2 bits n i st = gen_ata_wait_busy_from K env bits n i st := by
  induction n generalizing i st with
  | zero => simp [gen_ata_wait_busy_from]
  | succ n ih =>
      simp only [gen_ata_wait_busy_from] at h ⊢
      have hk := gen_ata_wait_busy_from_k_le K env bits n (i + 1) (tick st)
      have hv : reg_val env2 st = reg_val env st := by
        simp only [reg_val]
        rw [h st.k]
        by_cases hc : reg_val env st &&& bits = 0
        · simp [hc, tick]
        · simp only [hc, if_false]
          simp only [tick] at hk ⊢
          omega
      rw [hv]
      by_cases hc : reg_val env st &&& bits = 0
      · simp [hc]
      · simp only [hc, if_false] at h ⊢
        rw [ih (i + 1) (tick st) h]

theorem ata_device_select_k_le (K : AtaConsts) (env : Env) (device : Nat) (st : St) :
    st.k ≤ (ata_device_select K env device st).st.k := by
  have h1 := gen_ata_wait_busy_from_k_le K env ATA_WAIT_BUSBUSY 56 0 st
  have h2 := gen_ata_wait_busy_from_k_le K env ATA_WAIT_BUSBUSY 56 0
    (tick (tick (tick (gen_ata_wait_busy_from K env ATA_WAIT_BUSBUSY 56 0 st).st)))
  simp only [ata_device_select, gen_ata_wait_busy]
  split_ifs
  · exact h1
  · simp only [tick]; omega
  · simp only [tick] at h2 ⊢; omega

theorem ata_device_select_env (K : AtaConsts) (env env2 : Env) (device : Nat) (st : St)
    (h : ∀ j, j < (ata_device_select K env device st).st.k → env2 j = env j) :
    ata_device_select K env2 device st = ata_device_select K env device st := by
  have hk1 := gen_ata_wait_busy_from_k_le K env ATA_WAIT_BUSBUSY 56 0 st
  have hk2 := gen_ata_wait_busy_from_k_le K env ATA_WAIT_BUSBUSY 56 0
    (tick (tick (tick (gen_ata_wait_busy_from K env ATA_WAIT_BUSBUSY 56 0 st).st)))
  simp only [ata_device_select, gen_ata_wait_busy] at h ⊢
  by_cases c1 : (gen_ata_wait_busy_from K env ATA_WAIT_BUSBUSY 56 0 st).res < 0
  · simp only [c1, if_true] at h
    rw [gen_ata_wait_busy_from_env K env env2 _ _ _ _ h]
    simp [c1]
  · simp only [c1, if_false] at h
    by_cases c2 : (reg_val env (gen_ata_wait_busy_from K env ATA_WAIT_BUSBUSY 56 0 st).st >>> 4)
        &&& 1 = device
    · simp only [c2, if_true, tick] at h
      have e1 := gen_ata_wait_busy_from_env K env env2 ATA_WAIT_BUSBUSY 56 0 st
        (fun j hj => h j (by omega))
      rw [e1]
      have hv : reg_val env2 (gen_ata_wait_busy_from K env ATA_WAIT_BUSBUSY 56 0 st).st =
          reg_val env (gen_ata_wait_busy_from K env ATA_WAIT_BUSBUSY 56 0 st).st := by
        simp only [reg_val]; rw [h _ (by omega)]
      rw [hv]
      simp only [c1, c2, if_true, if_false]
    · simp only [c2, if_false] at h
      simp only [tick_k] at hk2
      have e1 := gen_ata_wait_busy_from_env K env env2 ATA_WAIT_BUSBUSY 56 0 st
        (fun j hj => h j (by omega))
      rw [e1]
      have hv : reg_val env2 (gen_ata_wait_busy_from K env ATA_WAIT_BUSBUSY 56 0 st).st =
          reg_val env (gen_ata_wait_busy_from K env ATA_WAIT_BUSBUSY 56 0 st).st := by
        simp only [reg_val]; rw [h _ (by omega)]
      have hv2 : reg_val env2 (tick (gen_ata_wait_busy_from K env ATA_WAIT_BUSBUSY 56 0 st).st) =
          reg_val env (tick (gen_ata_wait_busy_from K env ATA_WAIT_BUSBUSY 56 0 st).st) := by
        simp only [reg_val, tick_k]; rw [h _ (by omega)]
      have hv3 : reg_val env2
            (tick (tick (gen_ata_wait_busy_from K env ATA_WAIT_BUSBUSY 56 0 st).st)) =
          reg_val env (tick (tick (gen_ata_wait_busy_from K env ATA_WAIT_BUSBUSY 56 0 st).st)) := by
        simp only [reg_val, tick_k]; rw [h _ (by omega)]
      rw [hv, hv2, hv3]
      rw [gen_ata_wait_busy_from_env K env env2 _ _ _ _ h]


/-- Events of a successful `ata_io_start`: a prefix without any write to the
control register, the write to the control register, the optional high-byte
pass, the low-byte pass, select, opcode, LED. -/
theorem ata_io_start_ev_of_ok (K : AtaConsts) (env : Env) (a : io_args) (st : St)
    (hnr : K.ATA_RES_ERR_NOTREADY < 0) (h : (ata_io_start K env a st).res = 0) :
    ∃ pre ctl, (∀ e ∈ pre, ∀ v, e ≠ Event.write Reg.r_control v) ∧
      (∀ e ∈ pre, e.is_write = true →
        e = Event.write Reg.r_select ((((a.select >>> 4) &&& 1) &&& 1) <<< 4)) ∧
      (ata_io_start K env a st).ev =
        pre ++ Event.write Reg.r_control ctl ::
          ((if ata_cmd_flag_is_set (find_ata_cmd K a.command) ata_cmd_flag_write_twice ≠ 0 then
              high_byte_writes a else []) ++
           (low_byte_writes a ++
           [ Event.write Reg.r_select ((a.select ||| K.ATA_SEL_LBA) &&& 0xff)
           , Event.write Reg.r_command (a.command &&& 0xff)
           , Event.dev9LEDCtl 1 ])) := by
  have hsel := ata_device_select_writes K env ((a.select >>> 4) &&& 1) st
  simp only [ata_io_start, apply_ite Ret.res, apply_ite Ret.ev, reg_val, int_val, tick] at h ⊢
  split_ifs at h with c1 c2 c3 c4
  · exact absurd h c1
  · exact absurd h (ne_of_lt hnr)
  · exact absurd h (ne_of_lt hnr)
  · exact absurd h (ne_of_lt c4.2)
  rw [if_neg c1, if_neg c2, if_neg c3, if_neg c4]
  refine ⟨Event.ClearEventFlag 0 ::
      ((ata_device_select K env ((a.select >>> 4) &&& 1) st).ev ++
        Event.read Reg.r_control
            (env (ata_device_select K env ((a.select >>> 4) &&& 1) st).st.k % 65536).toNat ::
          ((if ata_cmd_flag_is_set (find_ata_cmd K a.command) ata_cmd_flag_use_timeout ≠ 0 then
              [Event.SetAlarm 0x41eb0000 0
                (env ((ata_device_select K env ((a.select >>> 4) &&& 1) st).st.k + 1))]
            else []) ++
           (if ata_cmd_command_bits (find_ata_cmd K a.command) = 1 then
              [Event.dev9IntrEnable K.SPD_INTR_ATA0] else []))),
      (if ata_cmd_flag_is_set (find_ata_cmd K a.command) ata_cmd_flag_use_timeout ≠ 0 then 0
        else 2), ?_, ?_, ?_⟩
  · intro e he v hv
    subst hv
    simp only [List.mem_append, List.mem_cons, List.mem_singleton, List.not_mem_nil,
      or_false] at he
    rcases he with h1 | h1 | h1 | h1 | h1
    · cases h1
    · have := hsel _ h1 rfl
      cases this
    · cases h1
    · split_ifs at h1
      · simp at h1
      · simp at h1
    · split_ifs at h1
      · simp at h1
      · simp at h1
  · intro e he hw
    simp only [List.mem_append, List.mem_cons, List.mem_singleton, List.not_mem_nil,
      or_false] at he
    rcases he with h1 | h1 | h1 | h1 | h1
    · subst h1; cases hw
    · exact hsel _ h1 hw
    · subst h1; cases hw
    · split_ifs at h1
      · simp only [List.mem_singleton] at h1; subst h1; cases hw
      · simp at h1
    · split_ifs at h1
      · simp only [List.mem_singleton] at h1; subst h1; cases hw
      · simp at h1
  · simp only [List.append_assoc, List.cons_append, List.nil_append, List.singleton_append]


theorem table_opcodes_ne (K : AtaConsts) (hK : OpcodesDistinct K) (i j : Fin 11) (h : i ≠ j) :
    (table_opcodes K).get ⟨i.1, by simp [table_opcodes]⟩ ≠
      (table_opcodes K).get ⟨j.1, by simp [table_opcodes]⟩ := by
  intro he
  have := List.nodup_iff_injective_get.mp hK he
  exact h (Fin.ext (Fin.mk.inj this))

theorem dma_opcodes_ne (K : AtaConsts) (hK : OpcodesDistinct K) :
    K.ATA_C_READ_DMA % 256 ≠ K.ATA_C_READ_DMA_EXT % 256 ∧
    K.ATA_C_READ_DMA % 256 ≠ K.ATA_C_WRITE_DMA_EXT % 256 ∧
    K.ATA_C_WRITE_DMA % 256 ≠ K.ATA_C_READ_DMA_EXT % 256 ∧
    K.ATA_C_WRITE_DMA % 256 ≠ K.ATA_C_WRITE_DMA_EXT % 256 :=
  ⟨table_opcodes_ne K hK 0 4 (by decide), table_opcodes_ne K hK 0 7 (by decide),
   table_opcodes_ne K hK 5 4 (by decide), table_opcodes_ne K hK 5 7 (by decide)⟩

theorem and_255 (x : Nat) : x &&& 255 = x % 256 := Nat.and_pow_two_sub_one_eq_mod x 8

theorem and_15 (x : Nat) : x &&& 15 = x % 16 := Nat.and_pow_two_sub_one_eq_mod x 4

theorem and_1 (x : Nat) : x &&& 1 = x % 2 := Nat.and_pow_two_sub_one_eq_mod x 1

theorem and_65535 (x : Nat) : x &&& 65535 = x % 65536 := Nat.and_pow_two_sub_one_eq_mod x 16

theorem or_shl (a b i : Nat) (hb : b < 2 ^ i) : b ||| a <<< i = b + a * 2 ^ i := by
  rw [Nat.lor_comm, Nat.shiftLeft_eq, Nat.mul_comm, ← Nat.mul_add_lt_is_or hb]; omega

theorem shl_or (a b i : Nat) (hb : b < 2 ^ i) : a <<< i ||| b = b + a * 2 ^ i := by
  rw [Nat.lor_comm, or_shl a b i hb]

theorem and_ff00 (x : Nat) : x &&& 0xff00 = (x / 256 % 256) * 256 := by
  apply Nat.eq_of_testBit_eq
  intro i
  have h : (0xff00 : Nat) = 255 <<< 8 := by decide
  rw [h, Nat.testBit_and, Nat.testBit_shiftLeft]
  have h2 : (255 : Nat) = 2 ^ 8 - 1 := by decide
  rw [h2, Nat.testBit_two_pow_sub_one]
  have h3 : x / 256 % 256 * 256 = ((x >>> 8) % 2 ^ 8) <<< 8 := by
    rw [Nat.shiftLeft_eq, Nat.shiftRight_eq_div_pow]; norm_num
  rw [h3, Nat.testBit_shiftLeft, Nat.testBit_mod_two_pow, Nat.testBit_shiftRight]
  by_cases h8 : 8 ≤ i
  · have : 8 + (i - 8) = i := by omega
    simp [h8, this, Bool.and_comm]
  · simp [h8]

theorem mul_256_or (a b : Nat) (hb : b < 256) : a * 256 ||| b = b + a * 256 := by
  have := shl_or a b 8 (by omega)
  rw [Nat.shiftLeft_eq] at this
  simpa using this

theorem or_64_and_255 (x : Nat) (hx : x < 64) : (x ||| 64) &&& 255 = x + 64 := by
  rw [show (64 : Nat) = 1 <<< 6 from rfl, or_shl 1 x 6 (by omega), and_255]
  omega

/-- The task-file arguments `ata_device_sector_io` computes in 28-bit mode,
in arithmetic form. -/
theorem sector_io_args_28 (K : AtaConsts) (device buf lba nsectors dir : Nat)
    (hdev : device < 2) :
    (sector_io_args K 0 device buf lba nsectors dir).feature = 0 ∧
    (sector_io_args K 0 device buf lba nsectors dir).sector = lba % 256 ∧
    (sector_io_args K 0 device buf lba nsectors dir).lcyl = lba / 256 % 256 ∧
    (sector_io_args K 0 device buf lba nsectors dir).hcyl = lba / 65536 % 256 ∧
    (sector_io_args K 0 device buf lba nsectors dir).select =
      lba / 16777216 % 16 + device * 16 ∧
    (sector_io_args K 0 device buf lba nsectors dir).command % 256 =
      (if dir = 1 then K.ATA_C_WRITE_DMA else K.ATA_C_READ_DMA) % 256 := by
  simp only [sector_io_args, ne_eq, not_true_eq_false, if_false, and_255, and_15, and_65535,
    Nat.shiftRight_eq_div_pow]
  rw [shl_or device _ 4 (by omega)]
  refine ⟨trivial, by omega, by omega, by omega, by omega, by omega⟩

/-- The task-file arguments `ata_device_sector_io` computes in 48-bit mode,
in arithmetic form. -/
theorem sector_io_args_48 (K : AtaConsts) (lba_48bit device buf lba nsectors dir : Nat)
    (h48 : lba_48bit ≠ 0) (hdev : device < 2) :
    (sector_io_args K lba_48bit device buf lba nsectors dir).feature = 0 ∧
    (sector_io_args K lba_48bit device buf lba nsectors dir).sector =
      lba % 256 + (lba / 16777216 % 256) * 256 ∧
    (sector_io_args K lba_48bit device buf lba nsectors dir).lcyl = lba / 256 % 256 ∧
    (sector_io_args K lba_48bit device buf lba nsectors dir).hcyl = lba / 65536 % 256 ∧
    (sector_io_args K lba_48bit device buf lba nsectors dir).select = device * 16 ∧
    (sector_io_args K lba_48bit device buf lba nsectors dir).command % 256 =
      (if dir = 1 then K.ATA_C_WRITE_DMA_EXT else K.ATA_C_READ_DMA_EXT) % 256 := by
  simp only [sector_io_args, ne_eq, h48, not_false_eq_true, if_true, and_255, and_ff00,
    and_65535, Nat.shiftRight_eq_div_pow, Nat.shiftLeft_eq, Nat.div_div_eq_div_mul]
  rw [mul_256_or _ _ (by omega)]
  norm_num
  refine ⟨by omega, by omega, by omega, by omega⟩

/-- Reassembly of a 28-bit address from the bytes written in 28-bit mode. -/
theorem lba28_reassemble (lba device : Nat) (hdev : device < 2) :
    ((lba / 16777216 % 16 + device * 16 + 64) &&& 0xf = lba / 2 ^ 24 % 2 ^ 4 ∧
     ((lba / 16777216 % 16 + device * 16 + 64) >>> 4) &&& 1 = device) ∧
    lba % 256 ||| (lba / 256 % 256) <<< 8 ||| (lba / 65536 % 256) <<< 16 |||
      ((lba / 16777216 % 16 + device * 16 + 64) &&& 0xf) <<< 24 = lba % 2 ^ 28 := by
  simp only [and_15, and_1, Nat.shiftRight_eq_div_pow]
  have e : (lba / 16777216 % 16 + device * 16 + 64) % 16 = lba / 16777216 % 16 := by omega
  rw [e, or_shl _ _ 8 (by omega), or_shl _ _ 16 (by omega), or_shl _ _ 24 (by omega)]
  refine ⟨⟨by omega, by omega⟩, by omega⟩

/-- Reassembly of the address from the two register passes of 48-bit mode. -/
theorem lba48_reassemble (lba : Nat) (hlba : lba < 2 ^ 32) :
    (lba % 256 ||| (lba / 256 % 256) <<< 8 ||| (lba / 65536 % 256) <<< 16) |||
      (lba / 16777216 % 256 ||| 0 <<< 8 ||| 0 <<< 16) <<< 24 = lba := by
  rw [or_shl _ _ 8 (by omega), or_shl _ _ 16 (by omega)]
  simp only [Nat.zero_shiftLeft, Nat.or_zero]
  rw [or_shl _ _ 24 (by omega)]
  omega

theorem gen_ata_wait_busy_from_events (K : AtaConsts) (env : Env) (bits n i : Nat) (st : St) :
    ∀ e ∈ (gen_ata_wait_busy_from K env bits n i st).ev,
      (∃ v, e = Event.read Reg.r_control v) ∨ (∃ d, e = Event.DelayThread d) := by
  induction n generalizing i st with
  | zero => simp [gen_ata_wait_busy_from]
  | succ n ih =>
      simp only [gen_ata_wait_busy_from]
      by_cases h : reg_val env st &&& bits = 0
      · rw [if_pos h]
        intro e he
        simp only [List.mem_singleton] at he
        exact Or.inl ⟨_, he⟩
      · rw [if_neg h]
        intro e he
        simp only [List.mem_cons, List.mem_append] at he
        rcases he with h | h | h
        · exact Or.inl ⟨_, h⟩
        · split_ifs at h
          · simp only [List.mem_singleton] at h; exact Or.inr ⟨_, h⟩
          · simp at h
        · exact ih _ _ e h

/-- The events of `ata_device_select`: reads, delays, and at most the write
of `(device & 1) << 4` to the select register. -/
theorem ata_device_select_events (K : AtaConsts) (env : Env) (device : Nat) (st : St) :
    ∀ e ∈ (ata_device_select K env device st).ev,
      (∃ r v, e = Event.read r v) ∨ (∃ d, e = Event.DelayThread d) ∨
        e = Event.write Reg.r_select ((device &&& 1) <<< 4) := by
  have hb : ∀ st2, ∀ e ∈ (gen_ata_wait_busy_from K env ATA_WAIT_BUSBUSY 56 0 st2).ev,
      (∃ r v, e = Event.read r v) ∨ (∃ d, e = Event.DelayThread d) ∨
        e = Event.write Reg.r_select ((device &&& 1) <<< 4) := by
    intro st2 e he
    rcases gen_ata_wait_busy_from_events K env _ _ _ st2 e he with ⟨v, h⟩ | h
    · exact Or.inl ⟨_, v, h⟩
    · exact Or.inr (Or.inl h)
  intro e he
  simp only [ata_device_select, gen_ata_wait_busy] at he
  split_ifs at he
  · exact hb _ e he
  · simp only [List.mem_append, List.mem_singleton] at he
    rcases he with h | h
    · exact hb _ e h
    · exact Or.inl ⟨_, _, h⟩
  · simp only [List.mem_append, List.mem_cons, List.mem_singleton, List.not_mem_nil,
      or_false] at he
    rcases he with (h | h | h | h | h) | h
    · exact hb _ e h
    · exact Or.inl ⟨_, _, h⟩
    · exact Or.inr (Or.inr h)
    · exact Or.inl ⟨_, _, h⟩
    · exact Or.inl ⟨_, _, h⟩
    · exact hb _ e h

/-! ### The DMA completion loop -/

theorem DmaTrace_skip (buf b dir done burst : Nat) (e : Event) (es : List Event)
    (h1 : ∀ v, e ≠ Event.read Reg.SPD_38 v)
    (h2 : ∀ c a bcr d r, e ≠ Event.dev9DmaTransfer c a bcr d r) :
    DmaTrace buf b dir done burst (e :: es) = DmaTrace buf b dir done burst es := by
  cases e with
  | read r v =>
      cases r <;> first | rfl | exact absurd rfl (h1 v)
  | dev9DmaTransfer c a bcr d r => exact absurd rfl (h2 c a bcr d r)
  | _ => rfl

theorem DmaTrace_skip_list (buf b dir done burst : Nat) (l es : List Event)
    (h : ∀ e ∈ l, (∀ v, e ≠ Event.read Reg.SPD_38 v) ∧
      ∀ c a bcr d r, e ≠ Event.dev9DmaTransfer c a bcr d r) :
    DmaTrace buf b dir done burst (l ++ es) = DmaTrace buf b dir done burst es := by
  induction l with
  | nil => rfl
  | cons e l ih =>
      rw [List.cons_append, DmaTrace_skip _ _ _ _ _ _ _ (h e (List.mem_cons_self _ _)).1
        (h e (List.mem_cons_self _ _)).2]
      exact ih (fun x hx => h x (List.mem_cons_of_mem _ hx))

theorem dma_poll_trace (env : Env) (buf b dir done : Nat) (n : Nat) (st : St) (burst : Nat)
    (es : List Event) (hn : 0 < n ∨ burst = 0) :
    DmaTrace buf b dir done burst ((dma_poll env n st).ev ++ es) =
      DmaTrace buf b dir done (dma_poll env n st).val es := by
  induction n generalizing st burst with
  | zero =>
      rcases hn with h | h
      · exact absurd h (lt_irrefl 0)
      · subst h; rfl
  | succ n ih =>
      simp only [dma_poll]
      by_cases hv : reg_val env st &&& 0x1f ≠ 0
      · rw [if_pos hv]
        simp only [List.singleton_append, DmaTrace]
        rfl
      · rw [if_neg hv]
        simp only [List.cons_append, DmaTrace]
        apply ih
        right
        exact not_not.mp hv

theorem dma_poll_val_le (env : Env) (n : Nat) (st : St) : (dma_poll env n st).val ≤ 31 := by
  induction n generalizing st with
  | zero => simp [dma_poll]
  | succ n ih =>
      simp only [dma_poll]
      split_ifs
      · exact Nat.and_le_right
      · exact ih _

theorem dma_wait_trace (K : AtaConsts) (env : Env) (buf b dir done burst : Nat) (st : St)
    (es : List Event) :
    (∀ d, (dma_wait K env st).out = DmaReady.next_transfer d →
      d ≤ 31 ∧
      DmaTrace buf b dir done burst ((dma_wait K env st).ev ++ es) =
        DmaTrace buf b dir done d es) ∧
    ((dma_wait K env st).out = DmaReady.again →
      ∃ burst2, DmaTrace buf b dir done burst ((dma_wait K env st).ev ++ es) =
        DmaTrace buf b dir done burst2 es) ∧
    (∀ res, (dma_wait K env st).out = DmaReady.fail res →
      res = K.ATA_RES_ERR_TIMEOUT ∨ res = K.ATA_RES_ERR_ICRC ∨ res = K.ATA_RES_ERR_IO) := by
  have hp := dma_poll_trace env buf b dir done 20 st burst
  have hle := dma_poll_val_le env 20 st
  simp only [dma_wait]
  by_cases c1 : (dma_poll env 20 st).val ≠ 0
  · rw [if_pos c1]
    refine ⟨fun d hd => ?_, fun h => (by cases h), fun res h => (by cases h)⟩
    cases hd
    exact ⟨hle, hp es (Or.inl (by decide))⟩
  rw [if_neg c1]
  by_cases c2 : word_val env (dma_poll env 20 st).st &&& ATA_EV_TIMEOUT ≠ 0
  · rw [if_pos c2]
    refine ⟨fun d hd => (by cases hd), fun h => (by cases h), fun res h => ?_⟩
    cases h
    exact Or.inl rfl
  rw [if_neg c2]
  by_cases c3 : reg_val env (tick (dma_poll env 20 st).st) &&& 0x02 = 0
  · rw [if_pos c3]
    by_cases c4 : reg_val env (tick (tick (dma_poll env 20 st).st)) &&& 0x01 ≠ 0
    · rw [if_pos c4]
      refine ⟨fun d hd => (by cases hd), fun h => (by cases h), fun res h => ?_⟩
      cases h
      split_ifs
      · exact Or.inr (Or.inl rfl)
      · exact Or.inr (Or.inr rfl)
    · rw [if_neg c4]
      refine ⟨fun d hd => (by cases hd), fun _ => ⟨(dma_poll env 20 st).val, ?_⟩,
        fun res h => (by cases h)⟩
      simp only [List.append_assoc]
      rw [hp _ (Or.inl (by decide))]
      simp only [List.cons_append, List.nil_append, DmaTrace]
      rfl
  · rw [if_neg c3]
    refine ⟨fun d hd => ?_, fun h => (by cases h), fun res h => (by cases h)⟩
    cases hd
    refine ⟨Nat.and_le_right, ?_⟩
    simp only [List.append_assoc]
    rw [hp _ (Or.inl (by decide))]
    simp only [List.cons_append, List.nil_append, DmaTrace]
    rfl

theorem dma_bcr (c : Nat) (hc : c ≤ 31) :
    ((c * 512 % 4294967296) <<< 9) % 4294967296 ||| 32 = ((512 * c) <<< 9) ||| 32 := by
  have h1 : c * 512 % 4294967296 = 512 * c := by omega
  rw [h1, Nat.shiftLeft_eq]
  have h2 : 512 * c * 2 ^ 9 % 4294967296 = 512 * c * 2 ^ 9 := by omega
  rw [h2]

theorem dma_bcr_blocks (c : Nat) : (((512 * c) <<< 9) ||| 32) / 2 ^ 18 = c := by
  have h : (512 * c) <<< 9 = c <<< 18 := by
    rw [Nat.shiftLeft_eq, Nat.shiftLeft_eq]; omega
  rw [h, shl_or c 32 18 (by decide)]
  omega

/-- The events of a successful run of `ata_dma_complete` that starts with
`done` blocks already transferred satisfy the specification trace. -/
theorem ata_dma_complete_trace (K : AtaConsts) (env : Env) (hE : ErrorsNegative K)
    (buf b dir : Nat) (fuel : Nat) :
    ∀ (done burst : Nat) (st : St) (r : Ret), done ≤ b →
      ata_dma_complete K env fuel (buf + 512 * done) (b - done) dir st = some r →
      r.res = 0 → DmaTrace buf b dir done burst r.ev = true := by
  obtain ⟨-, ht, hio, hcrc⟩ := hE
  induction fuel with
  | zero => intro done burst st r _ h; simp [ata_dma_complete] at h
  | succ fuel ih =>
      intro done burst st r hd h hr
      rw [ata_dma_complete] at h
      by_cases c0 : b - done = 0
      · rw [if_pos c0] at h
        cases h
        simp only [DmaTrace, decide_eq_true_eq]
        omega
      rw [if_neg c0] at h
      have hw := dma_wait_trace K env buf b dir done burst st
      generalize dma_wait K env st = w at h hw
      obtain ⟨out, wst, wev⟩ := w
      cases out with
      | fail res =>
          simp only at h
          cases h
          rcases (hw []).2.2 res rfl with e | e | e <;> simp only at hr <;> omega
      | again =>
          simp only at h
          cases h2 : ata_dma_complete K env fuel (buf + 512 * done) (b - done) dir wst with
          | none => rw [h2] at h; cases h
          | some r2 =>
              rw [h2] at h
              cases h
              obtain ⟨burst2, hb2⟩ := (hw r2.ev).2.1 rfl
              simp only at hb2 hr ⊢
              rw [hb2]
              exact ih done burst2 wst r2 hd h2 hr
      | next_transfer d =>
          obtain ⟨hd31, hdt⟩ := (hw (Event.dev9DmaTransfer 0 (buf + 512 * done)
            (((512 * min (b - done) d) <<< 9) ||| 32) dir (int_val env wst) :: [])).1 d rfl
          have hmin : (if b - done < d then b - done else d) = min (b - done) d := by
            split_ifs <;> omega
          simp only [hmin] at h
          have hc31 : min (b - done) d ≤ 31 := by omega
          have hnb : min (b - done) d * 512 % 4294967296 = 512 * min (b - done) d := by omega
          rw [dma_bcr _ hc31, hnb] at h
          by_cases c5 : int_val env wst < 0
          · rw [if_pos c5] at h
            cases h
            simp only at hr
            omega
          rw [if_neg c5] at h
          have e1 : buf + 512 * done + 512 * min (b - done) d =
              buf + 512 * (done + min (b - done) d) := by omega
          have e2 : b - done - min (b - done) d = b - (done + min (b - done) d) := by omega
          rw [e1, e2] at h
          cases h2 : ata_dma_complete K env fuel (buf + 512 * (done + min (b - done) d))
              (b - (done + min (b - done) d)) dir (tick wst) with
          | none => rw [h2] at h; cases h
          | some r2 =>
              rw [h2] at h
              cases h
              have hrec := ih (done + min (b - done) d) d (tick wst) r2 (by omega) h2 hr
              have := ((hw (Event.dev9DmaTransfer 0 (buf + 512 * done)
                (((512 * min (b - done) d) <<< 9) ||| 32) dir (int_val env wst) :: r2.ev)).1 d
                rfl).2
              simp only at this ⊢
              rw [this]
              simp only [DmaTrace, Bool.and_eq_true, decide_eq_true_eq]
              exact ⟨⟨⟨⟨⟨hd31, trivial⟩, trivial⟩, trivial⟩, trivial⟩, hrec⟩

theorem DmaTrace_sum (buf b dir : Nat) (ev : List Event) :
    ∀ done burst, done ≤ b → DmaTrace buf b dir done burst ev = true →
      done + (ev.map transfer_blocks).sum = b := by
  induction ev with
  | nil =>
      intro done burst _ h
      simp only [DmaTrace, decide_eq_true_eq] at h
      simp [h]
  | cons e es ih =>
      intro done burst hd h
      cases e with
      | read r v =>
          cases r
          case SPD_38 =>
            simp only [DmaTrace] at h
            have := ih done _ hd h
            simpa [transfer_blocks] using this
          all_goals
            rw [DmaTrace_skip _ _ _ _ _ _ _ (by intro v h; cases h)
              (by intro c a bcr d r h; cases h)] at h
            have := ih done _ hd h
            simpa [transfer_blocks] using this
      | dev9DmaTransfer c a bcr d r =>
          simp only [DmaTrace, Bool.and_eq_true, decide_eq_true_eq] at h
          obtain ⟨⟨⟨⟨⟨-, -⟩, -⟩, hb⟩, -⟩, hrest⟩ := h
          have := ih _ _ (by omega) hrest
          simp only [List.map_cons, List.sum_cons, transfer_blocks, hb, dma_bcr_blocks]
          omega
      | _ =>
          rw [DmaTrace_skip _ _ _ _ _ _ _ (by intro v h; cases h)
            (by intro c a bcr d r h; cases h)] at h
          have := ih done _ hd h
          simpa [transfer_blocks] using this

/-! ### Completion: busy waits, the PIO loop, the clean-up -/

theorem gen_ata_wait_busy_idle (K : AtaConsts) (env : Env) (bits : Nat) (st : St)
    (h : reg_val env st &&& bits = 0) :
    gen_ata_wait_busy K env bits st =
      ⟨0, tick st, [Event.read Reg.r_control (reg_val env st)]⟩ := by
  show gen_ata_wait_busy_from K env bits (55 + 1) 0 st = _
  rw [gen_ata_wait_busy_from, if_pos h]

theorem pio_guard_true (b : Nat) : (pio_guard b).2 = true := by
  simp only [pio_guard, decide_eq_true_eq]
  omega

/-- When no read of the control register shows the busy bit, the PIO loop
of `ata_io_finish` is never left, whatever the block count. -/
theorem pio_pump_never_returns (K : AtaConsts) (env : Env)
    (h : ∀ st, reg_val env st &&& ATA_WAIT_BUSY = 0) :
    ∀ fuel res st, pio_pump K env fuel res st = none := by
  intro fuel
  induction fuel with
  | zero => intro res st; rfl
  | succ fuel ih =>
      intro res st
      rw [pio_pump]
      simp only [pio_guard_true, if_true]
      rw [gen_ata_wait_busy_idle K env _ _ (h _)]
      simp only [lt_self_iff_false, if_false, ih]

/-- When the wait of a non-data command ends with the `TIMEOUT` bit,
`ata_io_finish` returns at once: its only event is the wait. -/
theorem ata_io_finish_nondata_timeout (K : AtaConsts) (env : Env) (fuel : Nat) (st : St)
    (h1 : st.atad_cmd_state.type = 1) (h2 : word_val env st &&& ATA_EV_TIMEOUT ≠ 0) :
    ata_io_finish K env fuel st =
      some ⟨K.ATA_RES_ERR_TIMEOUT, tick st,
        [Event.WaitEventFlag (ATA_EV_TIMEOUT ||| ATA_EV_COMPLETE) (word_val env st)]⟩ := by
  simp only [ata_io_finish]
  rw [if_pos h1, if_pos h2]

theorem io_finish_status_cleanup (K : AtaConsts) (env : Env) (res : Int) (st : St)
    (ev : List Event) :
    ∃ ev2, (io_finish_status K env res st ev).ev =
      ev2 ++ [Event.CancelAlarm, Event.dev9LEDCtl 0] := by
  simp only [io_finish_status, io_finish_cleanup]
  split_ifs <;> exact ⟨_, rfl⟩

/-- On every path but the timeout of a non-data command, `ata_io_finish`
ends with `CancelAlarm` and `dev9LEDCtl(0)`. -/
theorem ata_io_finish_cleanup_otherwise (K : AtaConsts) (env : Env) (fuel : Nat) (st : St)
    (r : Ret) (h : ata_io_finish K env fuel st = some r)
    (hn : ¬ (st.atad_cmd_state.type = 1 ∧ word_val env st &&& ATA_EV_TIMEOUT ≠ 0)) :
    ∃ ev, r.ev = ev ++ [Event.CancelAlarm, Event.dev9LEDCtl 0] := by
  simp only [ata_io_finish] at h
  by_cases c1 : st.atad_cmd_state.type = 1
  · rw [if_pos c1] at h
    have c2 : ¬ word_val env st &&& ATA_EV_TIMEOUT ≠ 0 := fun h2 => hn ⟨c1, h2⟩
    rw [if_neg c2] at h
    cases h
    exact io_finish_status_cleanup K env _ _ _
  rw [if_neg c1] at h
  by_cases c3 : st.atad_cmd_state.type = 4
  · rw [if_pos c3] at h
    cases hd : ata_dma_complete K env fuel st.atad_cmd_state.buf st.atad_cmd_state.blkcount
        st.atad_cmd_state.dir st with
    | none => rw [hd] at h; cases h
    | some d =>
        rw [hd] at h
        simp only at h
        split_ifs at h <;> cases h
        all_goals first
          | exact io_finish_status_cleanup K env _ _ _
          | exact ⟨_, rfl⟩
  · rw [if_neg c3] at h
    by_cases c4 : (gen_ata_wait_busy K env ATA_WAIT_BUSY (tick st)).res < 0
    · rw [if_pos c4] at h
      cases h
      exact ⟨_, rfl⟩
    · rw [if_neg c4] at h
      cases hp : pio_pump K env fuel (gen_ata_wait_busy K env ATA_WAIT_BUSY (tick st)).res
          (gen_ata_wait_busy K env ATA_WAIT_BUSY (tick st)).st with
      | none => rw [hp] at h; cases h
      | some q =>
          rw [hp] at h
          cases h
          exact io_finish_status_cleanup K env _ _ _


/-! ### The retry loop of a chunk -/

/-- Shape of the attempts of one chunk: some attempts that ended in the CRC
error, then, unless all `n` passes were used up, one last attempt that
ended otherwise; the result is that of the last attempt. -/
theorem sector_io_retry_shape (K : AtaConsts) (env : Env)
    (io_start : io_args → St → Ret) (io_finish : St → Option Ret) (a : io_args) (dir : Nat) :
    ∀ (n : Nat) (res0 : Int) (st : St) (r : RetryRet),
      sector_io_retry K env io_start io_finish a dir n res0 st = some r →
      ∃ k tail, r.attempts =
          List.replicate k (⟨a, 0, some K.ATA_RES_ERR_ICRC⟩ : Attempt) ++ tail ∧
        ((k = n ∧ tail = [] ∧ r.ret.res = (if n = 0 then res0 else K.ATA_RES_ERR_ICRC)) ∨
         (k < n ∧ ∃ s, s ≠ 0 ∧ tail = [⟨a, s, none⟩] ∧ r.ret.res = s) ∨
         (k < n ∧ ∃ f, f ≠ K.ATA_RES_ERR_ICRC ∧ tail = [⟨a, 0, some f⟩] ∧ r.ret.res = f)) := by
  intro n
  induction n with
  | zero =>
      intro res0 st r h
      simp only [sector_io_retry] at h
      cases h
      exact ⟨0, [], rfl, Or.inl ⟨rfl, rfl, rfl⟩⟩
  | succ n ih =>
      intro res0 st r h
      rw [sector_io_retry] at h
      by_cases c1 : (io_start a st).res ≠ 0
      · rw [if_pos c1] at h
        cases h
        exact ⟨0, _, rfl, Or.inr (Or.inl ⟨Nat.succ_pos n, _, c1, rfl, rfl⟩)⟩
      rw [if_neg c1] at h
      dsimp only at h
      have c1' : (io_start a st).res = 0 := not_not.mp c1
      cases hf : io_finish (ata_set_dir K env dir (io_start a st).st).1 with
      | none => rw [hf] at h; cases h
      | some r2 =>
          rw [hf] at h
          simp only at h
          by_cases c2 : r2.res ≠ K.ATA_RES_ERR_ICRC
          · rw [if_pos c2] at h
            cases h
            refine ⟨0, _, rfl, Or.inr (Or.inr ⟨Nat.succ_pos n, r2.res, c2, ?_, rfl⟩)⟩
            rw [c1']
          rw [if_neg c2] at h
          have c2' : r2.res = K.ATA_RES_ERR_ICRC := not_not.mp c2
          cases hq : sector_io_retry K env io_start io_finish a dir n r2.res (tick r2.st) with
          | none => rw [hq] at h; cases h
          | some q =>
              rw [hq] at h
              cases h
              obtain ⟨k, tail, hatt, hcase⟩ := ih _ _ _ hq
              refine ⟨k + 1, tail, ?_, ?_⟩
              · simp only [hatt, c1', c2', List.replicate_succ, List.cons_append]
              · rcases hcase with ⟨hk, ht, hres⟩ | ⟨hk, s, hs, ht, hres⟩ | ⟨hk, f, hf2, ht, hres⟩
                · refine Or.inl ⟨by omega, ht, ?_⟩
                  rw [hres, if_neg (Nat.succ_ne_zero n)]
                  split_ifs
                  · exact c2'
                  · rfl
                · exact Or.inr (Or.inl ⟨by omega, s, hs, ht, hres⟩)
                · exact Or.inr (Or.inr ⟨by omega, f, hf2, ht, hres⟩)

/-! ### The chunk loop -/

/-- When the chunk length computed for `nsectors > 0` is `0` and every
chunk that returns has result `0`, the loop of `ata_device_sector_io` never
returns: it comes back to the same `buf`, `lba` and `nsectors`. -/
theorem sector_io_loop_stuck (K : AtaConsts) (env : Env)
    (io_start : io_args → St → Ret) (io_finish : St → Option Ret)
    (lba_48bit device dir buf lba nsectors : Nat)
    (hlba : lba < 4294967296) (hn : 0 < nsectors) (hns : nsectors < 4294967296)
    (hlen : (sector_io_args K lba_48bit device buf lba nsectors dir).blkcount = 0)
    (hok : ∀ st r, sector_io_retry K env io_start io_finish
        (sector_io_args K lba_48bit device buf lba nsectors dir) dir 3 0 st = some r →
        r.ret.res = 0) :
    ∀ fuel st, sector_io_loop K env io_start io_finish lba_48bit device dir fuel 0
      buf lba nsectors st = none := by
  intro fuel
  induction fuel with
  | zero => intro st; rfl
  | succ fuel ih =>
      intro st
      rw [sector_io_loop, if_pos ⟨rfl, hn⟩]
      dsimp only
      cases hq : sector_io_retry K env io_start io_finish
          (sector_io_args K lba_48bit device buf lba nsectors dir) dir 3 0 st with
      | none => rfl
      | some r =>
          have h0 := hok st r hq
          have e1 : (lba + 0) % 4294967296 = lba := by omega
          have e2 : (nsectors + 4294967296 - 0) % 4294967296 = nsectors := by omega
          simp only [hlen, h0, Nat.zero_mul, Nat.add_zero, e1, e2, Nat.mod_eq_of_lt hlba, ih]

theorem ata_set_dir_st (K : AtaConsts) (env : Env) (dir : Nat) (st : St) :
    (ata_set_dir K env dir st).1 = tick st := rfl

theorem reg_val_const (v : Int) (st : St) : reg_val (fun _ => v) st = (v % 65536).toNat := rfl

theorem intr_poll_const_zero (n : Nat) (st : St) :
    (intr_poll (fun _ => 0x40) n st).val = 0 := by
  induction n generalizing st with
  | zero => rfl
  | succ n ih =>
      rw [intr_poll]
      have h : ¬ (reg_val (fun _ => (0x40 : Int)) st &&& 0x01 ≠ 0) := by
        rw [reg_val_const]; decide
      rw [if_neg h]
      exact ih _

theorem gen_ata_wait_busy_const (K : AtaConsts) (bits : Nat) (st : St)
    (h : (0x40 : Nat) &&& bits = 0) :
    gen_ata_wait_busy K (fun _ => 0x40) bits st =
      ⟨0, tick st, [Event.read Reg.r_control 0x40]⟩ :=
  gen_ata_wait_busy_idle K _ bits st h

/-- On a device that always answers `0x40` (idle, ready, device 0 selected),
`ata_io_start` accepts the command `ata_device_sector_io` builds for `65536`
sectors in 48-bit mode, and records a block count of `0`. -/
theorem ata_io_start_const_ok (device buf lba dir : Nat) (hdev : device = 0) (st : St) :
    (ata_io_start sdk (fun _ => 0x40) (sector_io_args sdk 1 device buf lba 65536 dir) st).res = 0 ∧
    (ata_io_start sdk (fun _ => 0x40)
      (sector_io_args sdk 1 device buf lba 65536 dir) st).st.atad_cmd_state.type = 4 ∧
    (ata_io_start sdk (fun _ => 0x40)
      (sector_io_args sdk 1 device buf lba 65536 dir) st).st.atad_cmd_state.blkcount = 0 := by
  subst hdev
  have hsel : ata_device_select sdk (fun _ => 0x40) 0 st =
      ⟨0, tick (tick st), [Event.read Reg.r_control 0x40, Event.read Reg.r_select 0x40]⟩ := by
    simp only [ata_device_select, gen_ata_wait_busy_const sdk ATA_WAIT_BUSBUSY _ (by decide),
      reg_val_const]
    rfl
  have ha : (sector_io_args sdk 1 0 buf lba 65536 dir).select = 0 := by
    simp [sector_io_args]
  have hb : (sector_io_args sdk 1 0 buf lba 65536 dir).blkcount = 0 := by
    simp [sector_io_args]
  have hc : find_ata_cmd sdk (sector_io_args sdk 1 0 buf lba 65536 dir).command = 0xc4 ∨
      find_ata_cmd sdk (sector_io_args sdk 1 0 buf lba 65536 dir).command = 0xe4 := by
    have hcmd : (sector_io_args sdk 1 0 buf lba 65536 dir).command =
        if dir = 1 then 0x35 else 0x25 := by
      simp only [sector_io_args, sdk]
      split_ifs <;> first | rfl | (exfalso; omega)
    rw [hcmd]
    by_cases hd : dir = 1
    · right; rw [if_pos hd]; decide
    · left; rw [if_neg hd]; decide
  simp only [ata_io_start, ha]
  rw [show ((0 : Nat) >>> 4) &&& 1 = 0 from rfl, hsel]
  simp only [reg_val_const, int_val, tick, hb]
  rcases hc with h | h <;> rw [h] <;>
    rw [if_neg (by decide), if_neg (by decide), if_neg (fun h => absurd h.1 (by decide)),
      if_neg (fun h => absurd h.2 (by decide))] <;>
    refine ⟨rfl, ?_, ?_⟩ <;> split_ifs <;> rfl

theorem io_finish_status_const_ok (st : St) (ev : List Event) :
    (io_finish_status sdk (fun _ => 0x40) 0 st ev).res = 0 := by
  simp only [io_finish_status, reg_val_const, io_finish_cleanup]
  rw [if_neg (by decide), if_neg (by decide)]
  simp only [reg_val_const]
  rw [if_neg (by decide)]

/-- On the same device `ata_io_finish`, when it returns for a DMA command
with a block count of `0`, returns `0`: the DMA completion loop has nothing
to do. -/
theorem ata_io_finish_const_ok (fuel : Nat) (st : St) (r : Ret)
    (ht : st.atad_cmd_state.type = 4) (hb : st.atad_cmd_state.blkcount = 0)
    (h : ata_io_finish sdk (fun _ => 0x40) fuel st = some r) : r.res = 0 := by
  simp only [ata_io_finish, ht, hb] at h
  rw [if_pos trivial] at h
  cases fuel with
  | zero => simp [ata_dma_complete] at h
  | succ fuel =>
      simp only [ata_dma_complete, if_true] at h
      rw [if_neg (by decide), if_pos (intr_poll_const_zero 100 st)] at h
      cases h
      have hw : word_val (fun _ => (0x40 : Int)) (intr_poll (fun _ => 0x40) 100 st).st &&&
          ATA_EV_TIMEOUT = 0 := by
        simp only [word_val]; decide
      rw [if_neg (fun hne => hne hw)]
      exact io_finish_status_const_ok _ _

/-- A chunk whose first attempt succeeds is done after that one attempt. -/
theorem sector_io_retry_ok (K : AtaConsts) (env : Env)
    (io_start : io_args → St → Ret) (io_finish : St → Option Ret) (a : io_args) (dir : Nat)
    (hI : K.ATA_RES_ERR_ICRC ≠ 0)
    (hs : ∀ a st, (io_start a st).res = 0)
    (hf : ∀ st, ∃ r, io_finish st = some r ∧ r.res = 0) (n : Nat) (res0 : Int) (st : St) :
    ∃ r, sector_io_retry K env io_start io_finish a dir (n + 1) res0 st = some r ∧
      r.ret.res = 0 ∧ r.attempts = [⟨a, 0, some 0⟩] := by
  obtain ⟨r2, h2, h0⟩ := hf (ata_set_dir K env dir (io_start a st).st).1
  rw [sector_io_retry, if_neg (fun hne => hne (hs a st))]
  dsimp only
  rw [h2]
  dsimp only
  rw [if_pos (by rw [h0]; exact fun h => hI h.symm)]
  exact ⟨_, rfl, h0, by rw [hs a st, h0]⟩

theorem sector_io_args_blkcount (K : AtaConsts) (lba_48bit device buf lba nsectors dir : Nat) :
    (sector_io_args K lba_48bit device buf lba nsectors dir).blkcount =
      if lba_48bit ≠ 0 then (if nsectors > 65536 then 65536 else nsectors) % 65536
      else (if nsectors > 256 then 256 else nsectors) % 65536 := by
  simp only [sector_io_args]
  split_ifs <;> rfl

/-- The part of C1 the code fulfils.  When every call of `ata_io_start`
and of `ata_io_finish` succeeds, in 28-bit mode for every `u32` sector count
`n`, and in 48-bit mode for `n < 65536`, the loop of `ata_device_sector_io`
returns `0` (given enough fuel) after chunks that each took one attempt and
whose lengths are between `1` and `256` (28-bit) or `65535` (48-bit) and sum
to `n`. -/
theorem sector_io_loop_chunks (K : AtaConsts) (env : Env)
    (io_start : io_args → St → Ret) (io_finish : St → Option Ret)
    (lba_48bit device dir : Nat) (hI : K.ATA_RES_ERR_ICRC ≠ 0)
    (hs : ∀ a st, (io_start a st).res = 0)
    (hf : ∀ st, ∃ r, io_finish st = some r ∧ r.res = 0) :
    ∀ (n buf lba : Nat) (st : St), n < 4294967296 → (lba_48bit = 0 ∨ n < 65536) →
      ∃ fuel q, sector_io_loop K env io_start io_finish lba_48bit device dir fuel 0
          buf lba n st = some q ∧
        q.ret.res = 0 ∧
        (∀ c ∈ q.chunks, 1 ≤ c.args.blkcount ∧
          c.args.blkcount ≤ (if lba_48bit = 0 then 256 else 65535) ∧
          c.attempts.length = 1) ∧
        (q.chunks.map (fun c => c.args.blkcount)).sum = n := by
  intro n
  induction n using Nat.strong_induction_on with
  | _ n ih =>
      intro buf lba st hn hmode
      by_cases h0 : n = 0
      · subst h0
        refine ⟨1, ⟨⟨0, st, []⟩, []⟩, ?_, rfl, by simp, rfl⟩
        rw [sector_io_loop, if_neg (by omega)]
      · have hlen := sector_io_args_blkcount K lba_48bit device buf lba n dir
        have hl1 : 1 ≤ (sector_io_args K lba_48bit device buf lba n dir).blkcount ∧
            (sector_io_args K lba_48bit device buf lba n dir).blkcount ≤ n ∧
            (sector_io_args K lba_48bit device buf lba n dir).blkcount ≤
              (if lba_48bit = 0 then 256 else 65535) := by
          rw [hlen]
          split_ifs <;> omega
        obtain ⟨r, hr, hres, hatt⟩ := sector_io_retry_ok K env io_start io_finish
          (sector_io_args K lba_48bit device buf lba n dir) dir hI hs hf 2 0 st
        generalize ha : sector_io_args K lba_48bit device buf lba n dir = a at hl1 hr hatt hlen
        obtain ⟨fuel, q, hq, hq0, hqc, hqs⟩ := ih (n - a.blkcount) (by omega)
          (buf + a.blkcount * 512) ((lba + a.blkcount) % 4294967296) r.ret.st (by omega)
          (by rcases hmode with h | h
              · exact Or.inl h
              · exact Or.inr (by omega))
        refine ⟨fuel + 1, ⟨⟨q.ret.res, q.ret.st, r.ret.ev ++ q.ret.ev⟩, ⟨a, r.attempts⟩ :: q.chunks⟩,
          ?_, hq0, ?_, ?_⟩
        · have e : (n + 4294967296 - a.blkcount) % 4294967296 = n - a.blkcount := by omega
          rw [sector_io_loop, if_pos ⟨rfl, by omega⟩]
          dsimp only
          rw [ha, hr]
          dsimp only
          rw [hres, e, hq]
        · intro c hc
          rcases List.mem_cons.mp hc with h | h
          · subst h
            exact ⟨hl1.1, hl1.2.2, by rw [hatt]; rfl⟩
          · exact hqc c h
        · simp only [List.map_cons, List.sum_cons, hqs]
          omega

/-- The example of C1 on the driver's own functions, on a device that
answers every read with `0x46` (idle, ready, DMA bursts of 6 blocks):
`300` sectors are read as chunks of `256` and `44` in 28-bit mode and as one
chunk of `300` in 48-bit mode. -/
theorem ata_device_sector_io_300_sectors :
    (ata_device_sector_io sdk (fun _ => 0x46) 0 50 0 0 0 300 0 ⟨⟨0, 0, 0, 0⟩, 0⟩).map
        (fun q => (q.ret.res, q.chunks.map (fun c => (c.args.blkcount, c.attempts.length)))) =
      some (0, [(256, 1), (44, 1)]) ∧
    (ata_device_sector_io sdk (fun _ => 0x46) 1 60 0 0 0 300 0 ⟨⟨0, 0, 0, 0⟩, 0⟩).map
        (fun q => (q.ret.res, q.chunks.map (fun c => (c.args.blkcount, c.attempts.length)))) =
      some (0, [(300, 1)]) := by
  constructor <;> decide

/-! ### The busy wait -/

theorem after_reads_tick (st : St) (j : Nat) :
    tick (after_reads st j) = after_reads st (j + 1) := rfl

theorem after_reads_zero (st : St) : after_reads st 0 = st := rfl

theorem backoff_delay_eq (i : Nat) : backoff_delay i = i / 8 * 2 ^ (i / 4) * 32 := by
  simp only [backoff_delay, Nat.shiftLeft_eq, Nat.shiftRight_eq_div_pow]

theorem backoff_delay_mono (i j : Nat) (h : i ≤ j) : backoff_delay i ≤ backoff_delay j := by
  rw [backoff_delay_eq, backoff_delay_eq]
  apply Nat.mul_le_mul_right
  exact Nat.mul_le_mul (Nat.div_le_div_right h)
    (Nat.pow_le_pow_right (by decide) (Nat.div_le_div_right h))

theorem backoff_delay_le (i : Nat) (h : i < 56) : backoff_delay i ≤ 1572864 := by
  have := backoff_delay_mono i 55 (by omega)
  have e : backoff_delay 55 = 1572864 := by decide
  omega

theorem busy_delay_eq (i : Nat) (h : i < 56) : busy_delay i = backoff_delay i := by
  have h5 := backoff_delay_le i h
  have h0 : (i >>> 3) <<< (i >>> 2) ≤ backoff_delay i := by
    simp only [backoff_delay, Nat.shiftLeft_eq]
    exact Nat.le_mul_of_pos_right _ (by decide)
  have e1 : ((i >>> 3) <<< (i >>> 2)) % 4294967296 = (i >>> 3) <<< (i >>> 2) :=
    Nat.mod_eq_of_lt (by omega)
  unfold busy_delay
  rw [e1]
  exact Nat.mod_eq_of_lt (by unfold backoff_delay at h5; omega)

theorem backoff_delay_small (i : Nat) (h : i < 8) : backoff_delay i = 0 := by
  rw [backoff_delay_eq, Nat.div_eq_of_lt h]
  simp

theorem poll_busy_false (env : Env) (bits : Nat) (st : St) (j : Nat)
    (h : poll_busy env bits st j = false) : reg_val env (after_reads st j) &&& bits = 0 := by
  simpa [poll_busy, poll_status] using h

theorem poll_busy_true (env : Env) (bits : Nat) (st : St) (j : Nat)
    (h : poll_busy env bits st j = true) : ¬ reg_val env (after_reads st j) &&& bits = 0 := by
  simpa [poll_busy, poll_status] using h

/-- A wait whose first clear poll is poll `i + m` returns `0` there. -/
theorem gen_ata_wait_busy_from_clear (K : AtaConsts) (env : Env) (bits : Nat) (st : St) :
    ∀ n i m, i + n ≤ 56 → m < n →
      (∀ j, j < m → poll_busy env bits st (i + j) = true) →
      poll_busy env bits st (i + m) = false →
      gen_ata_wait_busy_from K env bits n i (after_reads st i) =
        ⟨0, after_reads st (i + m + 1),
          failed_polls env st i m ++ [Event.read Reg.r_control (poll_status env st (i + m))]⟩ := by
  intro n
  induction n with
  | zero => intro i m _ hm; omega
  | succ n ih =>
      intro i m hi hm hb hc
      rw [gen_ata_wait_busy_from]
      cases m with
      | zero =>
          have h0 := poll_busy_false env bits st i hc
          dsimp only
          rw [if_pos h0]
          rfl
      | succ m =>
          have h0 := poll_busy_true env bits st i (hb 0 (Nat.succ_pos m))
          dsimp only
          rw [if_neg h0, after_reads_tick]
          have e : i + (m + 1) = i + 1 + m := by omega
          rw [ih (i + 1) m (by omega) (by omega)
            (fun j hj => by
              have := hb (j + 1) (by omega)
              rwa [show i + (j + 1) = i + 1 + j by omega] at this)
            (by rwa [e] at hc)]
          rw [busy_delay_eq i (by omega), e]
          simp only [failed_polls, poll_status, List.cons_append, List.append_assoc, ne_eq,
            ite_not]

/-- A wait whose `n` polls all find the bits set returns the timeout error
after the last one. -/
theorem gen_ata_wait_busy_from_busy (K : AtaConsts) (env : Env) (bits : Nat) (st : St) :
    ∀ n i, i + n ≤ 56 →
      (∀ j, j < n → poll_busy env bits st (i + j) = true) →
      gen_ata_wait_busy_from K env bits n i (after_reads st i) =
        ⟨K.ATA_RES_ERR_TIMEOUT, after_reads st (i + n), failed_polls env st i n⟩ := by
  intro n
  induction n with
  | zero => intro i _ _; rfl
  | succ n ih =>
      intro i hi hb
      rw [gen_ata_wait_busy_from]
      have h0 := poll_busy_true env bits st i (hb 0 (Nat.succ_pos n))
      dsimp only
      rw [if_neg h0, after_reads_tick]
      have e : i + (n + 1) = i + 1 + n := by omega
      rw [ih (i + 1) (by omega)
        (fun j hj => by
          have := hb (j + 1) (by omega)
          rwa [show i + (j + 1) = i + 1 + j by omega] at this)]
      rw [busy_delay_eq i (by omega), e]
      simp only [failed_polls, poll_status, ne_eq, ite_not]

theorem failed_polls_reads (env : Env) (st : St) :
    ∀ n i, ((failed_polls env st i n).filter Event.is_status_read).length = n := by
  intro n
  induction n with
  | zero => intro i; rfl
  | succ n ih =>
      intro i
      rw [failed_polls]
      by_cases h : backoff_delay i = 0
      · rw [if_pos h]
        simp [Event.is_status_read, ih]
      · rw [if_neg h]
        simp [Event.is_status_read, ih]

/-- In the events of the busy wait every sleep comes right after a read of
the control register. -/
theorem gen_ata_wait_busy_from_read_first (K : AtaConsts) (env : Env) (bits : Nat) :
    ∀ n i st pre d rest,
      (gen_ata_wait_busy_from K env bits n i st).ev = pre ++ Event.DelayThread d :: rest →
      ∃ p v, pre = p ++ [Event.read Reg.r_control v] := by
  intro n
  induction n with
  | zero =>
      intro i st pre d rest h
      cases pre <;> cases h
  | succ n ih =>
      intro i st pre d rest h
      rw [gen_ata_wait_busy_from] at h
      dsimp only at h
      by_cases c : reg_val env st &&& bits = 0
      · rw [if_pos c] at h
        cases pre with
        | nil => cases h
        | cons x pre1 =>
            cases pre1 with
            | nil => cases h
            | cons y pre2 => cases h
      · rw [if_neg c] at h
        dsimp only at h
        cases pre with
        | nil => cases h
        | cons x pre1 =>
            rw [List.cons_append] at h
            injection h with hx h
            by_cases hd : busy_delay i ≠ 0
            · rw [if_pos hd] at h
              cases pre1 with
              | nil => exact ⟨[], reg_val env st, by rw [← hx]; rfl⟩
              | cons y pre2 =>
                  rw [List.cons_append, List.cons_append] at h
                  injection h with hy h
                  obtain ⟨p, v, hp⟩ := ih (i + 1) (tick st) pre2 d rest h
                  exact ⟨x :: y :: p, v, by rw [hp]; rfl⟩
            · rw [if_neg hd] at h
              obtain ⟨p, v, hp⟩ := ih (i + 1) (tick st) pre1 d rest h
              exact ⟨x :: p, v, by rw [hp]; rfl⟩

/-- Either some poll among the first `n` is the first clear one, or all are
busy. -/
theorem first_clear_poll (env : Env) (bits : Nat) (st : St) (n : Nat) :
    (∃ m, m < n ∧ (∀ j, j < m → poll_busy env bits st j = true) ∧
      poll_busy env bits st m = false) ∨
    (∀ j, j < n → poll_busy env bits st j = true) := by
  induction n with
  | zero => right; intro j hj; omega
  | succ n ih =>
      rcases ih with ⟨m, hm, hb, hc⟩ | hall
      · exact Or.inl ⟨m, by omega, hb, hc⟩
      · cases hn : poll_busy env bits st n with
        | false => exact Or.inl ⟨n, by omega, hall, hn⟩
        | true =>
            right
            intro j hj
            rcases Nat.lt_succ_iff_lt_or_eq.mp hj with h | h
            · exact hall j h
            · rw [h]; exact hn

/-! ## The claims -/

/-- C1, the code at the failing input.  In 48-bit mode, for a request of
`65536` sectors, the chunk length `(nsectors > 65536) ? 65536 : nsectors` is
stored in the `u16` variable `len` and becomes `0`.  On a device that
answers every read with `0x40` (idle, ready) each command issued then
succeeds, `nsectors` is decreased by `0`, and `ata_device_sector_io` does not
return, whatever the fuel. -/
theorem ata_device_sector_io_48bit_65536_never_returns :
    (sector_io_args sdk 1 0 0 0 65536 0).blkcount = 0 ∧
    ∀ fuel, ata_device_sector_io sdk (fun _ => 0x40) 1 fuel 0 0 0 65536 0
      ⟨⟨0, 0, 0, 0⟩, 0⟩ = none := by
  refine ⟨by decide, ?_⟩
  intro fuel
  have hstuck := sector_io_loop_stuck sdk (fun _ => 0x40) (ata_io_start sdk (fun _ => 0x40))
    (ata_io_finish sdk (fun _ => 0x40) fuel) 1 0 0 0 0 65536 (by decide) (by decide) (by decide)
    (by decide) ?_ fuel ⟨⟨0, 0, 0, 0⟩, 0⟩
  · simp only [ata_device_sector_io, ata_device_sector_io_with, hstuck]
  · intro st r hr
    obtain ⟨h1, h2, h3⟩ := ata_io_start_const_ok 0 0 0 0 rfl st
    rw [sector_io_retry, if_neg (fun hne => hne h1)] at hr
    dsimp only at hr
    generalize ata_io_start sdk (fun _ => 0x40) (sector_io_args sdk 1 0 0 0 65536 0) st = r1
      at h1 h2 h3 hr
    rw [ata_set_dir_st] at hr
    cases hf : ata_io_finish sdk (fun _ => 0x40) fuel (tick r1.st) with
    | none => rw [hf] at hr; cases hr
    | some r2 =>
        rw [hf] at hr
        have h0 : r2.res = 0 := ata_io_finish_const_ok fuel (tick r1.st) r2 h2 h3 hf
        dsimp only at hr
        rw [h0, if_pos (by decide)] at hr
        cases hr
        rfl

/-- C2. Take any chunk of `ata_device_sector_io` (the loop at any `buf`,
`lba`, `nsectors > 0`, state, with `res = 0`), over any behaviour of
`ata_io_start` and `ata_io_finish`, and let the calls made for the chunk
return.  The attempts made for it are `k` attempts that each passed
`ata_io_start` and got `ATA_RES_ERR_ICRC` from `ata_io_finish`, all with the
chunk's arguments, followed either by nothing, in which case `k = 3` and the
chunk's result is the CRC error, or by one last attempt (`k < 3`) that ended
in a non-zero result of `ata_io_start` or in a result of `ata_io_finish`
other than the CRC error, which is then the chunk's result.  So if every
attempt ends in the CRC error there are exactly 3 attempts and the result is
the CRC error.  And when the chunk's result is not `0`, the loop returns it
with this chunk as the last one: no later chunk is tried. -/
theorem sector_io_retry_policy (K : AtaConsts) (env : Env)
    (io_start : io_args → St → Ret) (io_finish : St → Option Ret)
    (lba_48bit device dir fuel buf lba nsectors : Nat) (st : St) (r : RetryRet)
    (hI : K.ATA_RES_ERR_ICRC ≠ 0) (hn : 0 < nsectors)
    (hr : sector_io_retry K env io_start io_finish
            (sector_io_args K lba_48bit device buf lba nsectors dir) dir 3 0 st = some r) :
    (∃ k tail,
      r.attempts =
        List.replicate k
          (⟨sector_io_args K lba_48bit device buf lba nsectors dir, 0,
            some K.ATA_RES_ERR_ICRC⟩ : Attempt) ++ tail ∧
      ((k = 3 ∧ tail = [] ∧ r.ret.res = K.ATA_RES_ERR_ICRC) ∨
       (k < 3 ∧ ∃ s, s ≠ 0 ∧
          tail = [⟨sector_io_args K lba_48bit device buf lba nsectors dir, s, none⟩] ∧
          r.ret.res = s) ∨
       (k < 3 ∧ ∃ f, f ≠ K.ATA_RES_ERR_ICRC ∧
          tail = [⟨sector_io_args K lba_48bit device buf lba nsectors dir, 0, some f⟩] ∧
          r.ret.res = f))) ∧
    ((∀ t ∈ r.attempts, t.start_res = 0 ∧ t.finish_res = some K.ATA_RES_ERR_ICRC) →
      r.attempts.length = 3 ∧ r.ret.res = K.ATA_RES_ERR_ICRC ∧ r.ret.res ≠ 0) ∧
    (r.ret.res ≠ 0 →
      sector_io_loop K env io_start io_finish lba_48bit device dir (fuel + 2) 0
          buf lba nsectors st =
        some ⟨⟨r.ret.res, r.ret.st, r.ret.ev⟩,
          [⟨sector_io_args K lba_48bit device buf lba nsectors dir, r.attempts⟩]⟩) := by
  obtain ⟨k, tail, hatt, hcase⟩ := sector_io_retry_shape K env io_start io_finish _ dir 3 0 st r hr
  have hcase3 : (k = 3 ∧ tail = [] ∧ r.ret.res = K.ATA_RES_ERR_ICRC) ∨
      (k < 3 ∧ ∃ s, s ≠ 0 ∧
        tail = [⟨sector_io_args K lba_48bit device buf lba nsectors dir, s, none⟩] ∧
        r.ret.res = s) ∨
      (k < 3 ∧ ∃ f, f ≠ K.ATA_RES_ERR_ICRC ∧
        tail = [⟨sector_io_args K lba_48bit device buf lba nsectors dir, 0, some f⟩] ∧
        r.ret.res = f) := by
    rcases hcase with ⟨hk, ht, hres⟩ | h2 | h3
    · exact Or.inl ⟨hk, ht, by simpa using hres⟩
    · exact Or.inr (Or.inl h2)
    · exact Or.inr (Or.inr h3)
  refine ⟨⟨k, tail, hatt, hcase3⟩, ?_, ?_⟩
  · intro hall
    rcases hcase3 with ⟨hk, ht, hres⟩ | ⟨-, s, hs, ht, -⟩ | ⟨-, f, hf, ht, -⟩
    · refine ⟨?_, hres, by rw [hres]; exact hI⟩
      rw [hatt, ht, hk]
      simp
    · have := hall ⟨sector_io_args K lba_48bit device buf lba nsectors dir, s, none⟩
        (by rw [hatt, ht]; exact List.mem_append_right _ (List.mem_singleton.mpr rfl))
      exact absurd this.1 hs
    · have := hall ⟨sector_io_args K lba_48bit device buf lba nsectors dir, 0, some f⟩
        (by rw [hatt, ht]; exact List.mem_append_right _ (List.mem_singleton.mpr rfl))
      simp only [Option.some.injEq] at this
      exact absurd this.2 hf
  · intro hne
    rw [sector_io_loop, if_pos ⟨rfl, hn⟩]
    simp only [hr]
    rw [sector_io_loop, if_neg (fun h => hne h.1)]
    simp

theorem sector_io_retry_policy_witness :
    ((sector_io_retry sdk crc_env (ata_io_start sdk crc_env) (ata_io_finish sdk crc_env 1)
        (sector_io_args sdk 0 0 0 0 300 0) 0 3 0 ⟨⟨0, 0, 0, 0⟩, 0⟩).map
      (fun r => (r.attempts.length, r.ret.res))) = some (3, -510) ∧
    ((sector_io_loop sdk crc_env (ata_io_start sdk crc_env) (ata_io_finish sdk crc_env 1)
        0 0 0 2 0 0 0 300 ⟨⟨0, 0, 0, 0⟩, 0⟩).map
      (fun q => (q.ret.res, q.chunks.map (fun c => (c.args.blkcount, c.attempts.length))))) =
      some (-510, [(256, 3)]) := by
  have hget : sector_io_retry sdk crc_env (ata_io_start sdk crc_env)
      (ata_io_finish sdk crc_env 1) (sector_io_args sdk 0 0 0 0 300 0) 0 3 0 ⟨⟨0, 0, 0, 0⟩, 0⟩ =
      some ((sector_io_retry sdk crc_env (ata_io_start sdk crc_env)
        (ata_io_finish sdk crc_env 1) (sector_io_args sdk 0 0 0 0 300 0) 0 3 0
        ⟨⟨0, 0, 0, 0⟩, 0⟩).get (by decide)) := (Option.some_get _).symm
  have h := sector_io_retry_policy sdk crc_env (ata_io_start sdk crc_env)
    (ata_io_finish sdk crc_env 1) 0 0 0 0 0 0 300 ⟨⟨0, 0, 0, 0⟩, 0⟩ _ (by decide) (by decide) hget
  have h2 := h.2.1 (by decide)
  have h3 := h.2.2 h2.2.2
  constructor
  · rw [hget, Option.map_some', h2.1, h2.2.1]
    rfl
  · rw [h3, Option.map_some']
    simp only [h2.1, h2.2.1, List.map]
    rfl

/-- C3, the code at the failing input.  A `FLUSH CACHE` command (non-data,
class 1) is issued to an idle, ready device: `ata_io_start` arms the alarm and
turns the LED on.  The wait of `ata_io_finish` then ends with the `TIMEOUT`
bit: the call returns `ATA_RES_ERR_TIMEOUT` and its only event is the wait;
it makes neither the `CancelAlarm` call nor the `dev9LEDCtl(0)` call, so the LED
stays on. -/
theorem ata_io_finish_nondata_timeout_skips_cleanup :
    (ata_io_start sdk (fun k => if k < 4 then 0x40 else 1) ⟨0, 1, 0, 0, 0, 0, 0, 0, 0xe7⟩
        ⟨⟨0, 0, 0, 0⟩, 0⟩) =
      ⟨0, ⟨⟨0, 1, 1, 0⟩, 4⟩,
        [ Event.ClearEventFlag 0, Event.read Reg.r_control 0x40, Event.read Reg.r_select 0x40
        , Event.read Reg.r_control 0x40, Event.SetAlarm 0x41eb0000 0 0x40
        , Event.dev9IntrEnable 1, Event.write Reg.r_control 0
        , Event.write Reg.r_feature 0, Event.write Reg.r_nsector 0, Event.write Reg.r_sector 0
        , Event.write Reg.r_lcyl 0, Event.write Reg.r_hcyl 0, Event.write Reg.r_select 0x40
        , Event.write Reg.r_command 0xe7, Event.dev9LEDCtl 1 ]⟩ ∧
    ata_io_finish sdk (fun k => if k < 4 then 0x40 else 1) 0 ⟨⟨0, 1, 1, 0⟩, 4⟩ =
      some ⟨sdk.ATA_RES_ERR_TIMEOUT, ⟨⟨0, 1, 1, 0⟩, 5⟩, [Event.WaitEventFlag 3 1]⟩ := by
  constructor <;> decide


/-- C4 (as amended). When the low byte of the command matches no entry of
`ata_cmd_table` and device selection has succeeded, `ata_io_start` returns
`ATA_RES_ERR_NOTREADY`, does nothing after the device selection, and leaves
the fields `buf`, `blkcount` and `dir` of `atad_cmd_state` as they were;
the field `type` is set to `0`. -/
theorem ata_io_start_unknown_opcode (K : AtaConsts) (env : Env) (a : io_args) (st : St)
    (hno : ∀ e ∈ ata_cmd_table K, e.command ≠ a.command % 256)
    (hsel : (ata_device_select K env ((a.select >>> 4) &&& 1) st).res = 0) :
    (ata_io_start K env a st).res = K.ATA_RES_ERR_NOTREADY ∧
    (ata_io_start K env a st).ev =
      Event.ClearEventFlag 0 :: (ata_device_select K env ((a.select >>> 4) &&& 1) st).ev ∧
    (ata_io_start K env a st).st.atad_cmd_state.buf = st.atad_cmd_state.buf ∧
    (ata_io_start K env a st).st.atad_cmd_state.blkcount = st.atad_cmd_state.blkcount ∧
    (ata_io_start K env a st).st.atad_cmd_state.dir = st.atad_cmd_state.dir ∧
    (ata_io_start K env a st).st.atad_cmd_state.type = 0 := by
  have h0 : find_ata_cmd K a.command = 0 := (find_ata_cmd_eq_zero_iff K a.command).mpr hno
  have hc := ata_device_select_cmd K env ((a.select >>> 4) &&& 1) st
  simp only [ata_io_start]
  generalize ata_device_select K env ((a.select >>> 4) &&& 1) st = r at hsel hc ⊢
  simp [hsel, h0, ata_cmd_command_bits, hc]

theorem ata_io_start_unknown_opcode_witness :
    (∀ e ∈ ata_cmd_table sdk, e.command ≠ 0 % 256) ∧
    (ata_io_start sdk (fun _ => 0x40) ⟨7, 7, 0, 0, 0, 0, 0, 0, 0⟩ ⟨⟨1, 2, 4, 1⟩, 0⟩).res = -501 ∧
    (ata_io_start sdk (fun _ => 0x40) ⟨7, 7, 0, 0, 0, 0, 0, 0, 0⟩
      ⟨⟨1, 2, 4, 1⟩, 0⟩).st.atad_cmd_state.type = 0 :=
  have h := ata_io_start_unknown_opcode sdk (fun _ => 0x40) ⟨7, 7, 0, 0, 0, 0, 0, 0, 0⟩
    ⟨⟨1, 2, 4, 1⟩, 0⟩ (by decide) (by decide)
  ⟨by decide, h.1, h.2.2.2.2.2⟩

/-- C4, counterexample. With the SDK constants, a device that is idle and
already selected, the opcode `0x00` (in no table entry) and a previous
in-flight record of type `4`: the call returns `ATA_RES_ERR_NOTREADY`, and the
record after the call differs from the record before it (its `type` is now
`0`). -/
theorem ata_io_start_unknown_opcode_clears_type :
    (∀ e ∈ ata_cmd_table sdk, e.command ≠ 0 % 256) ∧
    (ata_device_select sdk (fun _ => 0x40) 0 ⟨⟨1, 2, 4, 1⟩, 0⟩).res = 0 ∧
    (ata_io_start sdk (fun _ => 0x40) ⟨7, 7, 0, 0, 0, 0, 0, 0, 0⟩ ⟨⟨1, 2, 4, 1⟩, 0⟩).res =
      sdk.ATA_RES_ERR_NOTREADY ∧
    (ata_io_start sdk (fun _ => 0x40) ⟨7, 7, 0, 0, 0, 0, 0, 0, 0⟩
      ⟨⟨1, 2, 4, 1⟩, 0⟩).st.atad_cmd_state ≠ (⟨1, 2, 4, 1⟩ : atad_cmd_state_t) := by
  decide


/-- C5. When `ata_io_start` returns `0`, its events are: some events without
any write to the control register, then the write to the control register,
then, exactly when the class has `ata_cmd_flag_write_twice`, the high bytes
of feature, sector count, sector, low cylinder, high cylinder, in that
order, then the low bytes of the same five in the same order, then the
select register (`select | ATA_SEL_LBA`, low byte), then the opcode
register, then the LED call.  The opcode register is the last register
written.  With distinct opcodes in the header the flag is set exactly for
the opcodes of `READ DMA EXT` and `WRITE DMA EXT`. -/
theorem ata_io_start_write_order (K : AtaConsts) (env : Env) (a : io_args) (st : St)
    (hK : OpcodesDistinct K) (hE : ErrorsNegative K)
    (h : (ata_io_start K env a st).res = 0) :
    (∃ pre ctl, (∀ e ∈ pre, ∀ v, e ≠ Event.write Reg.r_control v) ∧
      (ata_io_start K env a st).ev =
        pre ++ Event.write Reg.r_control ctl ::
          ((if ata_cmd_flag_is_set (find_ata_cmd K a.command) ata_cmd_flag_write_twice ≠ 0 then
              [ Event.write Reg.r_feature ((a.feature >>> 8) &&& 0xff)
              , Event.write Reg.r_nsector ((a.nsector >>> 8) &&& 0xff)
              , Event.write Reg.r_sector ((a.sector >>> 8) &&& 0xff)
              , Event.write Reg.r_lcyl ((a.lcyl >>> 8) &&& 0xff)
              , Event.write Reg.r_hcyl ((a.hcyl >>> 8) &&& 0xff) ]
            else []) ++
           [ Event.write Reg.r_feature (a.feature &&& 0xff)
           , Event.write Reg.r_nsector (a.nsector &&& 0xff)
           , Event.write Reg.r_sector (a.sector &&& 0xff)
           , Event.write Reg.r_lcyl (a.lcyl &&& 0xff)
           , Event.write Reg.r_hcyl (a.hcyl &&& 0xff)
           , Event.write Reg.r_select ((a.select ||| K.ATA_SEL_LBA) &&& 0xff)
           , Event.write Reg.r_command (a.command &&& 0xff)
           , Event.dev9LEDCtl 1 ])) ∧
    ((ata_io_start K env a st).ev.filter Event.is_write).getLast? =
      some (Event.write Reg.r_command (a.command &&& 0xff)) ∧
    (ata_cmd_flag_is_set (find_ata_cmd K a.command) ata_cmd_flag_write_twice ≠ 0 ↔
      (a.command % 256 = K.ATA_C_READ_DMA_EXT % 256 ∨
       a.command % 256 = K.ATA_C_WRITE_DMA_EXT % 256)) := by
  obtain ⟨pre, ctl, hpre, -, hev⟩ := ata_io_start_ev_of_ok K env a st hE.1 h
  refine ⟨⟨pre, ctl, hpre, ?_⟩, ?_, find_ata_cmd_write_twice K hK a.command⟩
  · rw [hev]; rfl
  · rw [hev, List.getLast?_eq_some_iff]
    refine ⟨List.filter Event.is_write (pre ++ Event.write Reg.r_control ctl ::
        ((if ata_cmd_flag_is_set (find_ata_cmd K a.command) ata_cmd_flag_write_twice ≠ 0 then
            high_byte_writes a else []) ++
         (low_byte_writes a ++
           [Event.write Reg.r_select ((a.select ||| K.ATA_SEL_LBA) &&& 0xff)]))), ?_⟩
    simp [List.filter_cons, List.filter_append, Event.is_write]

theorem ata_io_start_write_order_witness :
    (ata_io_start sdk (fun _ => 0x40) ⟨0, 1, 0, 0x0102, 0x0304, 0x0506, 0x0708, 0, 0x25⟩
        ⟨⟨0, 0, 0, 0⟩, 0⟩).res = 0 ∧
    ((ata_io_start sdk (fun _ => 0x40) ⟨0, 1, 0, 0x0102, 0x0304, 0x0506, 0x0708, 0, 0x25⟩
        ⟨⟨0, 0, 0, 0⟩, 0⟩).ev.filter Event.is_write).getLast? =
      some (Event.write Reg.r_command 0x25) :=
  ⟨by decide,
    (ata_io_start_write_order sdk (fun _ => 0x40)
      ⟨0, 1, 0, 0x0102, 0x0304, 0x0506, 0x0708, 0, 0x25⟩ ⟨⟨0, 0, 0, 0⟩, 0⟩
      (by decide) (by decide) (by decide)).2.1⟩

/-- C6. For a 32-bit `lba` and a device `0` or `1`, when `ata_io_start` is
called with the arguments `ata_device_sector_io` computes for a chunk and
returns `0`, the registers written after the control register carry the
chunk's starting LBA.  In 28-bit mode (`lba_48bit = 0`) there is one pass:
sector, low cylinder, high cylinder are bits 0-7, 8-15, 16-23 of `lba`, the
select byte has bits 24-27 of `lba` in its low nibble and the device in bit
4, and `sector | lcyl<<8 | hcyl<<16 | (select & 0xf)<<24 = lba mod 2^28`.
In 48-bit mode there are two passes: the first writes bits 24-31 of `lba`
to sector and `0` to both cylinder registers, the second writes bits 0-7,
8-15, 16-23; the select low nibble is `0`, the device is in bit 4, and the
address reassembled from the two passes is `lba`.  The header is assumed to
give distinct opcodes, negative result codes and `ATA_SEL_LBA = 0x40`. -/
theorem sector_io_lba_packing (K : AtaConsts) (env : Env) (st : St)
    (lba_48bit device buf lba nsectors dir : Nat)
    (hK : OpcodesDistinct K) (hE : ErrorsNegative K) (hL : K.ATA_SEL_LBA = 0x40)
    (hlba : lba < 2 ^ 32) (hdev : device < 2)
    (h : (ata_io_start K env
            (sector_io_args K lba_48bit device buf lba nsectors dir) st).res = 0) :
    (lba_48bit = 0 →
      ∃ pre ctl nsector sector lcyl hcyl select command,
        (∀ e ∈ pre, ∀ v, e ≠ Event.write Reg.r_control v) ∧
        (ata_io_start K env (sector_io_args K lba_48bit device buf lba nsectors dir) st).ev =
          pre ++
            [ Event.write Reg.r_control ctl
            , Event.write Reg.r_feature 0
            , Event.write Reg.r_nsector nsector
            , Event.write Reg.r_sector sector
            , Event.write Reg.r_lcyl lcyl
            , Event.write Reg.r_hcyl hcyl
            , Event.write Reg.r_select select
            , Event.write Reg.r_command command
            , Event.dev9LEDCtl 1 ] ∧
        sector = lba % 2 ^ 8 ∧ lcyl = lba / 2 ^ 8 % 2 ^ 8 ∧ hcyl = lba / 2 ^ 16 % 2 ^ 8 ∧
        select &&& 0xf = lba / 2 ^ 24 % 2 ^ 4 ∧ (select >>> 4) &&& 1 = device ∧
        sector ||| lcyl <<< 8 ||| hcyl <<< 16 ||| (select &&& 0xf) <<< 24 = lba % 2 ^ 28) ∧
    (lba_48bit ≠ 0 →
      ∃ pre ctl nsector_hi sector_hi lcyl_hi hcyl_hi nsector sector lcyl hcyl select command,
        (∀ e ∈ pre, ∀ v, e ≠ Event.write Reg.r_control v) ∧
        (ata_io_start K env (sector_io_args K lba_48bit device buf lba nsectors dir) st).ev =
          pre ++
            [ Event.write Reg.r_control ctl
            , Event.write Reg.r_feature 0
            , Event.write Reg.r_nsector nsector_hi
            , Event.write Reg.r_sector sector_hi
            , Event.write Reg.r_lcyl lcyl_hi
            , Event.write Reg.r_hcyl hcyl_hi
            , Event.write Reg.r_feature 0
            , Event.write Reg.r_nsector nsector
            , Event.write Reg.r_sector sector
            , Event.write Reg.r_lcyl lcyl
            , Event.write Reg.r_hcyl hcyl
            , Event.write Reg.r_select select
            , Event.write Reg.r_command command
            , Event.dev9LEDCtl 1 ] ∧
        sector = lba % 2 ^ 8 ∧ lcyl = lba / 2 ^ 8 % 2 ^ 8 ∧ hcyl = lba / 2 ^ 16 % 2 ^ 8 ∧
        sector_hi = lba / 2 ^ 24 % 2 ^ 8 ∧ lcyl_hi = 0 ∧ hcyl_hi = 0 ∧
        select &&& 0xf = 0 ∧ (select >>> 4) &&& 1 = device ∧
        (sector ||| lcyl <<< 8 ||| hcyl <<< 16) |||
          (sector_hi ||| lcyl_hi <<< 8 ||| hcyl_hi <<< 16) <<< 24 = lba) := by
  obtain ⟨hk1, hk2, hk3, hk4⟩ := dma_opcodes_ne K hK
  have hwt := find_ata_cmd_write_twice K hK
    (sector_io_args K lba_48bit device buf lba nsectors dir).command
  constructor
  · intro h0
    subst h0
    obtain ⟨hf, hs, hl, hh, hsel, hc⟩ := sector_io_args_28 K device buf lba nsectors dir hdev
    generalize sector_io_args K 0 device buf lba nsectors dir = a at *
    obtain ⟨pre, ctl, hpre, -, hev⟩ := ata_io_start_ev_of_ok K env a st hE.1 h
    have hno : ¬ ata_cmd_flag_is_set (find_ata_cmd K a.command) ata_cmd_flag_write_twice ≠ 0 := by
      rw [hwt, hc]
      split_ifs <;> tauto
    rw [if_neg hno] at hev
    refine ⟨pre, ctl, a.nsector &&& 0xff, a.sector &&& 0xff, a.lcyl &&& 0xff, a.hcyl &&& 0xff,
      (a.select ||| K.ATA_SEL_LBA) &&& 0xff, a.command &&& 0xff, hpre, ?_, ?_⟩
    · rw [hev]
      simp only [low_byte_writes, hf, List.nil_append, List.cons_append]
      rfl
    · have hr := lba28_reassemble lba device hdev
      rw [hL, or_64_and_255 a.select (by omega), hs, hl, hh, hsel]
      simp only [and_255]
      have e0 : lba % 256 % 256 = lba % 256 := by omega
      have e1 : lba / 256 % 256 % 256 = lba / 256 % 256 := by omega
      have e2 : lba / 65536 % 256 % 256 = lba / 65536 % 256 := by omega
      rw [e0, e1, e2]
      exact ⟨rfl, rfl, rfl, hr.1.1, hr.1.2, hr.2⟩
  · intro h1
    obtain ⟨hf, hs, hl, hh, hsel, hc⟩ :=
      sector_io_args_48 K lba_48bit device buf lba nsectors dir h1 hdev
    generalize sector_io_args K lba_48bit device buf lba nsectors dir = a at *
    obtain ⟨pre, ctl, hpre, -, hev⟩ := ata_io_start_ev_of_ok K env a st hE.1 h
    have hyes : ata_cmd_flag_is_set (find_ata_cmd K a.command) ata_cmd_flag_write_twice ≠ 0 := by
      rw [hwt, hc]
      split_ifs <;> tauto
    rw [if_pos hyes] at hev
    refine ⟨pre, ctl, (a.nsector >>> 8) &&& 0xff, (a.sector >>> 8) &&& 0xff,
      (a.lcyl >>> 8) &&& 0xff, (a.hcyl >>> 8) &&& 0xff,
      a.nsector &&& 0xff, a.sector &&& 0xff, a.lcyl &&& 0xff, a.hcyl &&& 0xff,
      (a.select ||| K.ATA_SEL_LBA) &&& 0xff, a.command &&& 0xff, hpre, ?_, ?_⟩
    · rw [hev]
      simp only [high_byte_writes, low_byte_writes, hf, List.nil_append, List.cons_append]
      rfl
    · have hr := lba48_reassemble lba hlba
      rw [hL, or_64_and_255 a.select (by omega), hs, hl, hh, hsel]
      simp only [and_255, and_15, and_1, Nat.shiftRight_eq_div_pow]
      have e0 : (lba % 256 + lba / 16777216 % 256 * 256) % 256 = lba % 256 := by omega
      have e1 : lba / 256 % 256 % 256 = lba / 256 % 256 := by omega
      have e2 : lba / 65536 % 256 % 256 = lba / 65536 % 256 := by omega
      have e3 : (lba % 256 + lba / 16777216 % 256 * 256) / 2 ^ 8 % 256 =
          lba / 16777216 % 256 := by omega
      have e4 : lba / 256 % 256 / 2 ^ 8 % 256 = 0 := by omega
      have e5 : lba / 65536 % 256 / 2 ^ 8 % 256 = 0 := by omega
      rw [e0, e1, e2, e3, e4, e5]
      exact ⟨rfl, rfl, rfl, rfl, rfl, rfl, by omega, by omega, hr⟩

theorem sector_io_lba_packing_witness :
    (ata_io_start sdk (fun _ => 0x40) (sector_io_args sdk 0 1 0 0x12345678 8 0)
        ⟨⟨0, 0, 0, 0⟩, 0⟩).res = 0 ∧
    ∃ pre ctl nsector sector lcyl hcyl select command,
      (∀ e ∈ pre, ∀ v, e ≠ Event.write Reg.r_control v) ∧
      (ata_io_start sdk (fun _ => 0x40) (sector_io_args sdk 0 1 0 0x12345678 8 0)
          ⟨⟨0, 0, 0, 0⟩, 0⟩).ev =
        pre ++
          [ Event.write Reg.r_control ctl
          , Event.write Reg.r_feature 0
          , Event.write Reg.r_nsector nsector
          , Event.write Reg.r_sector sector
          , Event.write Reg.r_lcyl lcyl
          , Event.write Reg.r_hcyl hcyl
          , Event.write Reg.r_select select
          , Event.write Reg.r_command command
          , Event.dev9LEDCtl 1 ] ∧
      sector = 0x12345678 % 2 ^ 8 ∧ lcyl = 0x12345678 / 2 ^ 8 % 2 ^ 8 ∧
      hcyl = 0x12345678 / 2 ^ 16 % 2 ^ 8 ∧
      select &&& 0xf = 0x12345678 / 2 ^ 24 % 2 ^ 4 ∧ (select >>> 4) &&& 1 = 1 ∧
      sector ||| lcyl <<< 8 ||| hcyl <<< 16 ||| (select &&& 0xf) <<< 24 =
        0x12345678 % 2 ^ 28 :=
  ⟨by decide,
    (sector_io_lba_packing sdk (fun _ => 0x40) ⟨⟨0, 0, 0, 0⟩, 0⟩ 0 1 0 0x12345678 8 0
      (by decide) (by decide) rfl (by decide) (by decide) (by decide)).1 rfl⟩

/-- C7, the code at the failing input.  The guard
`--atad_cmd_state.blkcount != -1` compares a `u16` value, promoted to `int`,
with `-1`: it holds for every block count.  So for a PIO-class command
(type 2) with block count `0` on a device that is never busy,
`ata_io_finish` does not return, whatever the fuel; and when the device turns
busy for good after two pumps, the data port has been written twice (not
once) by the time the busy wait times out, the counter having wrapped to
`65534`. -/
theorem ata_io_finish_pio_zero_blocks_never_leaves :
    (∀ b, (pio_guard b).2 = true) ∧
    (∀ fuel, ata_io_finish sdk (fun _ => 0) fuel ⟨⟨0, 0, 2, 0⟩, 0⟩ = none) ∧
    (ata_io_finish sdk (fun k => if k < 3 then 0 else 0x80) 3 ⟨⟨0, 0, 2, 0⟩, 0⟩).map
        (fun r => (r.res, r.ev.count (Event.write Reg.SPD_R_PIO_DATA 0),
          r.st.atad_cmd_state.blkcount)) =
      some (sdk.ATA_RES_ERR_TIMEOUT, 2, 65534) := by
  refine ⟨pio_guard_true, ?_, by decide⟩
  intro fuel
  have h : ∀ st, reg_val (fun _ => (0 : Int)) st &&& ATA_WAIT_BUSY = 0 := by
    intro st; simp [reg_val, ATA_WAIT_BUSY]
  simp only [ata_io_finish]
  rw [if_neg (by decide), if_neg (by decide), gen_ata_wait_busy_idle sdk _ _ _ (h _)]
  simp only [lt_self_iff_false, if_false, pio_pump_never_returns sdk _ h]

/-- C8. Take a call of `ata_io_start` in which device selection succeeds,
the opcode is classified, and the control register read after it has the
ready bit `0x40` clear.  If the command is none of the five of the `switch`,
the call returns `ATA_RES_ERR_NOTREADY` and its events are the
`ClearEventFlag`, those of the device selection and the read of the control
register, nothing else: every event of the call is the `ClearEventFlag`, a
register read, a delay, or the write `(device & 1) << 4` to the select
register that the device selection makes when it has to switch devices.
So the rejected command arms no alarm, enables no interrupt and writes
neither the control register, nor feature, sector count, sector, cylinder
low or high, nor the opcode register, nor its own select value.  If the
command is one of the five, the value read does not matter: with any other
value at that read (in particular one with the ready bit set) the call has
the same result, the same final state and the same events, the value shown
in that one read event apart. -/
theorem ata_io_start_ready_gate (K : AtaConsts) (env : Env) (a : io_args) (st : St)
    (hsel : (ata_device_select K env ((a.select >>> 4) &&& 1) st).res = 0)
    (hcls : ata_cmd_command_bits (find_ata_cmd K a.command) ≠ 0)
    (hrdy : reg_val env (ata_device_select K env ((a.select >>> 4) &&& 1) st).st &&& 0x40 = 0) :
    (¬ legal_when_not_ready K a.command →
      (ata_io_start K env a st).res = K.ATA_RES_ERR_NOTREADY ∧
      (ata_io_start K env a st).ev =
        Event.ClearEventFlag 0 ::
          ((ata_device_select K env ((a.select >>> 4) &&& 1) st).ev ++
            [Event.read Reg.r_control
              (reg_val env (ata_device_select K env ((a.select >>> 4) &&& 1) st).st)]) ∧
      ∀ e ∈ (ata_io_start K env a st).ev,
        e = Event.ClearEventFlag 0 ∨ (∃ r v, e = Event.read r v) ∨
        (∃ d, e = Event.DelayThread d) ∨
        e = Event.write Reg.r_select ((((a.select >>> 4) &&& 1) &&& 1) <<< 4)) ∧
    (legal_when_not_ready K a.command →
      ∀ env2 : Env,
        (∀ j, j ≠ (ata_device_select K env ((a.select >>> 4) &&& 1) st).st.k → env2 j = env j) →
        (ata_io_start K env2 a st).res = (ata_io_start K env a st).res ∧
        (ata_io_start K env2 a st).st = (ata_io_start K env a st).st ∧
        ∃ post,
          (ata_io_start K env a st).ev =
            Event.ClearEventFlag 0 ::
              ((ata_device_select K env ((a.select >>> 4) &&& 1) st).ev ++
                Event.read Reg.r_control
                  (reg_val env (ata_device_select K env ((a.select >>> 4) &&& 1) st).st) ::
                  post) ∧
          (ata_io_start K env2 a st).ev =
            Event.ClearEventFlag 0 ::
              ((ata_device_select K env ((a.select >>> 4) &&& 1) st).ev ++
                Event.read Reg.r_control
                  (reg_val env2 (ata_device_select K env ((a.select >>> 4) &&& 1) st).st) ::
                  post)) := by
  constructor
  · intro hl
    simp only [ata_io_start, apply_ite Ret.res, apply_ite Ret.ev, reg_val, int_val, tick] at hrdy ⊢
    have c1 : ¬ (ata_device_select K env ((a.select >>> 4) &&& 1) st).res ≠ 0 :=
      fun hne => hne hsel
    have hse := ata_device_select_events K env ((a.select >>> 4) &&& 1) st
    rw [if_neg c1, if_neg hcls, if_pos ⟨hrdy, hl⟩, if_neg c1, if_neg hcls, if_pos ⟨hrdy, hl⟩]
    refine ⟨rfl, by simp, ?_⟩
    intro e he
    simp only [List.mem_append, List.mem_cons, List.mem_singleton, List.not_mem_nil,
      or_false] at he
    rcases he with (h | h) | h
    · exact Or.inl h
    · exact Or.inr (hse e h)
    · exact Or.inr (Or.inl ⟨_, _, h⟩)
  · intro hl env2 h2
    have hs : ata_device_select K env2 ((a.select >>> 4) &&& 1) st =
        ata_device_select K env ((a.select >>> 4) &&& 1) st :=
      ata_device_select_env K env env2 _ st (fun j hj => h2 j (by omega))
    have ha : env2 ((ata_device_select K env ((a.select >>> 4) &&& 1) st).st.k + 1) =
        env ((ata_device_select K env ((a.select >>> 4) &&& 1) st).st.k + 1) :=
      h2 _ (by omega)
    have c1 : ¬ (ata_device_select K env ((a.select >>> 4) &&& 1) st).res ≠ 0 :=
      fun hne => hne hsel
    simp only [ata_io_start, apply_ite Ret.res, apply_ite Ret.ev, apply_ite Ret.st, reg_val,
      int_val, tick, hs, ha]
    simp only [if_neg c1, if_neg hcls, hl, not_true_eq_false, and_false, if_false]
    refine ⟨trivial, trivial, ?_⟩
    by_cases c4 : ata_cmd_flag_is_set (find_ata_cmd K a.command) ata_cmd_flag_use_timeout ≠ 0 ∧
        env ((ata_device_select K env ((a.select >>> 4) &&& 1) st).st.k + 1) < 0
    · simp only [if_pos c4, List.append_assoc, List.cons_append, List.nil_append,
        List.singleton_append]
      exact ⟨_, rfl, rfl⟩
    · simp only [if_neg c4, List.append_assoc, List.cons_append, List.nil_append,
        List.singleton_append]
      exact ⟨_, rfl, rfl⟩

theorem ata_io_start_ready_gate_witness :
    (ata_io_start sdk (fun _ => 0) ⟨0, 1, 0, 0, 0, 0, 0, 0x10, 0xec⟩ ⟨⟨0, 0, 0, 0⟩, 0⟩).res =
      -501 ∧
    (ata_io_start sdk (fun _ => 0) ⟨0, 1, 0, 0, 0, 0, 0, 0x10, 0xec⟩ ⟨⟨0, 0, 0, 0⟩, 0⟩).ev =
      Event.ClearEventFlag 0 ::
        ((ata_device_select sdk (fun _ => 0) 1 ⟨⟨0, 0, 0, 0⟩, 0⟩).ev ++
          [Event.read Reg.r_control 0]) :=
  have h := (ata_io_start_ready_gate sdk (fun _ => 0) ⟨0, 1, 0, 0, 0, 0, 0, 0x10, 0xec⟩
    ⟨⟨0, 0, 0, 0⟩, 0⟩ (by decide) (by decide) (by decide)).1 (by decide)
  ⟨h.1, h.2.1⟩

/-- C9. `find_ata_cmd` returns the type byte of the last entry of
`ata_cmd_table` whose opcode is the low byte of the command, and `0` exactly
when no entry has that opcode.  When distinct command names of the header
are distinct opcodes, two entries of the table with the same opcode (the two
`STANDBY IMMEDIATE` entries) are equal, so the first entry with a given
opcode is the last one: first-match and last-match lookup agree. -/
theorem find_ata_cmd_last_match (K : AtaConsts) (hK : OpcodesDistinct K) (command : Nat) :
    (find_ata_cmd K command =
      match (ata_cmd_table K).reverse.find? (fun e => decide (e.command = command % 256)) with
      | some e => e.type
      | none => 0) ∧
    (find_ata_cmd K command = 0 ↔ ∀ e ∈ ata_cmd_table K, e.command ≠ command % 256) ∧
    (∀ e1 ∈ ata_cmd_table K, ∀ e2 ∈ ata_cmd_table K, e1.command = e2.command → e1 = e2) ∧
    (ata_cmd_table K).find? (fun e => decide (e.command = command % 256)) =
      (ata_cmd_table K).reverse.find? (fun e => decide (e.command = command % 256)) := by
  refine ⟨find_ata_cmd_scan_last _ _ _, find_ata_cmd_eq_zero_iff K command,
    ata_cmd_table_command_inj K hK, ?_⟩
  apply find?_reverse_of_unique
  intro x hx y hy hpx hpy
  have h1 : x.command = command % 256 := by simpa using hpx
  have h2 : y.command = command % 256 := by simpa using hpy
  exact ata_cmd_table_command_inj K hK x hx y hy (h1.trans h2.symm)

theorem find_ata_cmd_last_match_witness :
    OpcodesDistinct sdk ∧ find_ata_cmd sdk 0xe0 = 0x41 ∧
      (ata_cmd_table sdk).find? (fun e => decide (e.command = 0xe0 % 256)) =
        (ata_cmd_table sdk).reverse.find? (fun e => decide (e.command = 0xe0 % 256)) :=
  ⟨by decide, by decide, (find_ata_cmd_last_match sdk (by decide) 0xe0).2.2.2⟩

/-- C10. Whenever `ata_dma_complete` returns `0` (the result codes of the
header being negative), its events pass the check `DmaTrace` from `done = 0`:
every `dev9DmaTransfer` is made with control `0`, with the burst size `d` last
read from `SPD_REG16(0x38) & 0x1f` (so `d ≤ 31`), for `min remaining d`
blocks, that is `512 * min remaining d` bytes in the descriptor
`(nbytes << 9) | 32`, in the direction `dir`, at the address
`buf + 512 * (blocks already transferred)`; the event list ends with nothing
remaining; and the block counts of the transfers sum to `b`. -/
theorem ata_dma_complete_transfers (K : AtaConsts) (env : Env) (hE : ErrorsNegative K)
    (fuel buf b dir : Nat) (st : St) (r : Ret)
    (h : ata_dma_complete K env fuel buf b dir st = some r) (hr : r.res = 0) :
    DmaTrace buf b dir 0 0 r.ev = true ∧ (r.ev.map transfer_blocks).sum = b := by
  have ht := ata_dma_complete_trace K env hE buf b dir fuel 0 0 st r (Nat.zero_le b)
    (by simpa using h) hr
  refine ⟨ht, ?_⟩
  have := DmaTrace_sum buf b dir r.ev 0 0 (Nat.zero_le b) ht
  omega

theorem ata_dma_complete_transfers_witness :
    ata_dma_complete sdk (fun _ => 31) 3 4096 40 0 ⟨⟨0, 0, 0, 0⟩, 0⟩ =
      some ⟨0, ⟨⟨0, 0, 0, 0⟩, 4⟩,
        [ Event.read Reg.SPD_38 31, Event.dev9DmaTransfer 0 4096 8126496 0 31
        , Event.read Reg.SPD_38 31, Event.dev9DmaTransfer 0 19968 2359328 0 31 ]⟩ ∧
    DmaTrace 4096 40 0 0 0
      [ Event.read Reg.SPD_38 31, Event.dev9DmaTransfer 0 4096 8126496 0 31
      , Event.read Reg.SPD_38 31, Event.dev9DmaTransfer 0 19968 2359328 0 31 ] = true ∧
    ([ Event.read Reg.SPD_38 31, Event.dev9DmaTransfer 0 4096 8126496 0 31
     , Event.read Reg.SPD_38 31, Event.dev9DmaTransfer 0 19968 2359328 0 31 ].map
        transfer_blocks).sum = 40 :=
  ⟨by decide,
    ata_dma_complete_transfers sdk (fun _ => 31) (by decide) 3 4096 40 0 ⟨⟨0, 0, 0, 0⟩, 0⟩
      ⟨0, ⟨⟨0, 0, 0, 0⟩, 4⟩,
        [ Event.read Reg.SPD_38 31, Event.dev9DmaTransfer 0 4096 8126496 0 31
        , Event.read Reg.SPD_38 31, Event.dev9DmaTransfer 0 19968 2359328 0 31 ]⟩
      (by decide) rfl⟩

/-- C11. For every oracle of status reads, `gen_ata_wait_busy` (a total
function, so it always returns) polls the control register at most 56 times.
If poll `m < 56` is the first at which the monitored bits are all clear, it
returns `0` right after that read, and its events are those of the failed
polls `0, ..., m - 1` (each a status read followed, when the delay is not
zero, by `DelayThread` of the backoff delay) and the read of poll `m`. If
the bits are set at all 56 polls it returns the timeout error after the
events of 56 failed polls; the timeout error (a non-zero code) is returned
exactly in that case, and the result is never anything but `0` or the
timeout error. Every `DelayThread` comes right after a status read. The
delay the code computes in 32 bits for counter `i < 56` is
`((i >> 3) << (i >> 2)) << 5` itself, which stays below `2 ^ 32`, is `0` for
`i < 8` and is non-decreasing over `0..55`. -/
theorem gen_ata_wait_busy_polls (K : AtaConsts) (env : Env) (bits : Nat) (st : St)
    (hT : K.ATA_RES_ERR_TIMEOUT ≠ 0) :
    (∀ m, m < 56 → (∀ j, j < m → poll_busy env bits st j = true) →
      poll_busy env bits st m = false →
      gen_ata_wait_busy K env bits st =
        ⟨0, after_reads st (m + 1),
          failed_polls env st 0 m ++ [Event.read Reg.r_control (poll_status env st m)]⟩) ∧
    ((∀ j, j < 56 → poll_busy env bits st j = true) →
      gen_ata_wait_busy K env bits st =
        ⟨K.ATA_RES_ERR_TIMEOUT, after_reads st 56, failed_polls env st 0 56⟩) ∧
    ((gen_ata_wait_busy K env bits st).res = K.ATA_RES_ERR_TIMEOUT ↔
      ∀ j, j < 56 → poll_busy env bits st j = true) ∧
    ((gen_ata_wait_busy K env bits st).res = 0 ∨
      (gen_ata_wait_busy K env bits st).res = K.ATA_RES_ERR_TIMEOUT) ∧
    ((gen_ata_wait_busy K env bits st).ev.filter Event.is_status_read).length ≤ 56 ∧
    (gen_ata_wait_busy K env bits st).st.k =
      st.k + ((gen_ata_wait_busy K env bits st).ev.filter Event.is_status_read).length ∧
    (∀ pre d rest, (gen_ata_wait_busy K env bits st).ev = pre ++ Event.DelayThread d :: rest →
      ∃ p v, pre = p ++ [Event.read Reg.r_control v]) ∧
    (∀ i, i < 56 → busy_delay i = backoff_delay i ∧ backoff_delay i < 2 ^ 32) ∧
    (∀ i, i < 8 → busy_delay i = 0) ∧
    (∀ i j, i ≤ j → j < 56 → busy_delay i ≤ busy_delay j) := by
  have hclear : ∀ m, m < 56 → (∀ j, j < m → poll_busy env bits st j = true) →
      poll_busy env bits st m = false →
      gen_ata_wait_busy K env bits st =
        ⟨0, after_reads st (m + 1),
          failed_polls env st 0 m ++ [Event.read Reg.r_control (poll_status env st m)]⟩ := by
    intro m hm hb hc
    have h := gen_ata_wait_busy_from_clear K env bits st 56 0 m (by omega) hm
      (fun j hj => by rw [Nat.zero_add]; exact hb j hj) (by rw [Nat.zero_add]; exact hc)
    rw [Nat.zero_add] at h
    exact h
  have hbusy : (∀ j, j < 56 → poll_busy env bits st j = true) →
      gen_ata_wait_busy K env bits st =
        ⟨K.ATA_RES_ERR_TIMEOUT, after_reads st 56, failed_polls env st 0 56⟩ := by
    intro hb
    exact gen_ata_wait_busy_from_busy K env bits st 56 0 (by omega)
      (fun j hj => by rw [Nat.zero_add]; exact hb j hj)
  refine ⟨hclear, hbusy, ?_, ?_, ?_, ?_, ?_, ?_, ?_, ?_⟩
  · constructor
    · intro hr
      rcases first_clear_poll env bits st 56 with ⟨m, hm, hb, hc⟩ | hall
      · rw [hclear m hm hb hc] at hr
        exact absurd hr.symm hT
      · exact hall
    · intro hall
      rw [hbusy hall]
  · rcases first_clear_poll env bits st 56 with ⟨m, hm, hb, hc⟩ | hall
    · left; rw [hclear m hm hb hc]
    · right; rw [hbusy hall]
  · rcases first_clear_poll env bits st 56 with ⟨m, hm, hb, hc⟩ | hall
    · rw [hclear m hm hb hc]
      simp only [List.filter_append, List.length_append, failed_polls_reads]
      simp [Event.is_status_read]
      omega
    · rw [hbusy hall]
      simp only [failed_polls_reads]
      exact Nat.le_refl 56
  · rcases first_clear_poll env bits st 56 with ⟨m, hm, hb, hc⟩ | hall
    · rw [hclear m hm hb hc]
      simp only [List.filter_append, List.length_append, failed_polls_reads]
      simp [Event.is_status_read, after_reads]
    · rw [hbusy hall]
      simp only [failed_polls_reads]
      rfl
  · exact gen_ata_wait_busy_from_read_first K env bits 56 0 st
  · intro i hi
    have := backoff_delay_le i hi
    exact ⟨busy_delay_eq i hi, by omega⟩
  · intro i hi
    rw [busy_delay_eq i (by omega)]
    exact backoff_delay_small i hi
  · intro i j hij hj
    rw [busy_delay_eq i (by omega), busy_delay_eq j hj]
    exact backoff_delay_mono i j hij

theorem gen_ata_wait_busy_polls_witness :
    sdk.ATA_RES_ERR_TIMEOUT ≠ 0 ∧
    gen_ata_wait_busy sdk (fun k => if k < 9 then 0x80 else 0) ATA_WAIT_BUSY
        ⟨⟨0, 0, 0, 0⟩, 0⟩ =
      ⟨0, ⟨⟨0, 0, 0, 0⟩, 10⟩,
        [ Event.read Reg.r_control 128, Event.read Reg.r_control 128
        , Event.read Reg.r_control 128, Event.read Reg.r_control 128
        , Event.read Reg.r_control 128, Event.read Reg.r_control 128
        , Event.read Reg.r_control 128, Event.read Reg.r_control 128
        , Event.read Reg.r_control 128, Event.DelayThread 128
        , Event.read Reg.r_control 0 ]⟩ :=
  ⟨by decide,
    ((gen_ata_wait_busy_polls sdk (fun k => if k < 9 then 0x80 else 0) ATA_WAIT_BUSY
      ⟨⟨0, 0, 0, 0⟩, 0⟩ (by decide)).1 9 (by decide) (by decide) (by decide)).trans
      (by decide)⟩

end Atad
